import Mathlib

/-!
Verification development for the pyTivo Recording Download Engine
(plugins/togo/tivodownload.py and plugins/togo/togo.py).

The Python source is shallowly embedded: byte buffers are lists of
naturals below 256, the mutable `status` dictionary of a queued download
becomes the `DownloadItem` structure, and the streaming loops become
structural recursions over the list of chunks returned by successive
reads.  Wall-clock readings and floating point transfer rates are
abstracted (rates are modelled with natural division; no claim inspects
a rate value other than the literal reset to 0).
-/

namespace PyTivo

/-! ### Constants from tivodownload.py -/

def TS_PACKET_SIZE : Nat := 188

def TS_PACKET_SYNC_BYTE : Nat := 0x47

/-! ### Transport-Stream Integrity Scanner

Embedding of `packets_with_sync_loss(buf)` (tivodownload.py lines
724-746).  The Python loop iterates `packet` over
`range(len(buf) // TS_PACKET_SIZE)` carrying the mutable variables
`sync_loss`, `sync_loss_start` and `packets_lost`; after the loop a
still-open loss run is closed using the final value of `packet`,
which is `n - 1` for a non-empty buffer. -/

structure SyncScanState where
  sync_loss : Bool
  sync_loss_start : Nat
  packets_lost : List (Nat × Nat)
  deriving Repr, DecidableEq

def syncScanStep (buf : List Nat) (s : SyncScanState) (packet : Nat) : SyncScanState :=
  if buf.getD (packet * TS_PACKET_SIZE) 0 ≠ TS_PACKET_SYNC_BYTE then
    if s.sync_loss then s
    else { s with sync_loss := true, sync_loss_start := packet }
  else
    if s.sync_loss then
      { s with sync_loss := false,
               packets_lost :=
                 s.packets_lost ++ [(s.sync_loss_start, packet - s.sync_loss_start)] }
    else s

def packets_with_sync_loss (buf : List Nat) : List (Nat × Nat) :=
  let n := buf.length / TS_PACKET_SIZE
  let final := (List.range n).foldl (syncScanStep buf) ⟨false, 0, []⟩
  if final.sync_loss then
    final.packets_lost ++ [(final.sync_loss_start, (n - 1) - final.sync_loss_start + 1)]
  else
    final.packets_lost

/-- The per-packet corruption flags of a buffer: entry `p` is `true`
when the first byte of packet `p` differs from the sync byte. -/
def lostFlags (buf : List Nat) : List Bool :=
  (List.range (buf.length / TS_PACKET_SIZE)).map
    (fun p => buf.getD (p * TS_PACKET_SIZE) 0 != TS_PACKET_SYNC_BYTE)

theorem dropWhile_length_le {α : Type} (p : α → Bool) (l : List α) :
    (l.dropWhile p).length ≤ l.length := by
  induction l with
  | nil => simp
  | cons a l ih =>
    by_cases h : p a
    · simpa [List.dropWhile, h] using Nat.le_succ_of_le ih
    · simp [List.dropWhile, h]

/-- Specification of the scanner, written from the spec text: the
ordered list of the maximal contiguous runs of `true` flags, each run
reported as (start index, length).  A run that reaches the end of the
list is closed at the list boundary. -/
def lossRuns : List Bool → Nat → List (Nat × Nat)
  | [], _ => []
  | false :: rest, i => lossRuns rest (i + 1)
  | true :: rest, i =>
      (i, (rest.takeWhile (fun b => b)).length + 1) ::
        lossRuns (rest.dropWhile (fun b => b)) (i + (rest.takeWhile (fun b => b)).length + 1)
termination_by l => l.length
decreasing_by
  · simp
  · simpa using Nat.lt_succ_of_le (dropWhile_length_le (fun b => b) rest)

/-! ### Scanner correctness (claim C2) -/

/-- The corruption flag of packet `p` of a buffer. -/
def flagAt (buf : List Nat) (p : Nat) : Bool :=
  buf.getD (p * TS_PACKET_SIZE) 0 != TS_PACKET_SYNC_BYTE

/-- One iteration of the scan loop, with the packet flag precomputed. -/
def stepFlag (s : SyncScanState) (i : Nat) (b : Bool) : SyncScanState :=
  if b then
    if s.sync_loss then s
    else { s with sync_loss := true, sync_loss_start := i }
  else
    if s.sync_loss then
      { s with sync_loss := false,
               packets_lost := s.packets_lost ++ [(s.sync_loss_start, i - s.sync_loss_start)] }
    else s

/-- The scan loop as a recursion over the flag list, carrying the
packet index. -/
def scanFlags : List Bool → Nat → SyncScanState → SyncScanState
  | [], _, s => s
  | b :: rest, i, s => scanFlags rest (i + 1) (stepFlag s i b)

/-- Closing a loss run still open when the loop ends (the Python code
after the loop, where `packet` holds `m - 1`). -/
def scanFinalize (m : Nat) (s : SyncScanState) : List (Nat × Nat) :=
  if s.sync_loss then
    s.packets_lost ++ [(s.sync_loss_start, (m - 1) - s.sync_loss_start + 1)]
  else
    s.packets_lost

theorem syncScanStep_eq_stepFlag (buf : List Nat) (s : SyncScanState) (p : Nat) :
    syncScanStep buf s p = stepFlag s p (flagAt buf p) := by
  by_cases h : buf.getD (p * TS_PACKET_SIZE) 0 = TS_PACKET_SYNC_BYTE <;>
    simp [syncScanStep, stepFlag, flagAt, h]

theorem foldl_range_eq_scanFlags (buf : List Nat) :
    ∀ (k i : Nat) (s : SyncScanState),
      (List.range' i k).foldl (syncScanStep buf) s
        = scanFlags ((List.range' i k).map (flagAt buf)) i s := by
  intro k
  induction k with
  | zero => intro i s; simp [scanFlags]
  | succ k ih =>
    intro i s
    rw [List.range'_succ]
    simp only [List.foldl_cons, List.map_cons, scanFlags]
    rw [ih, syncScanStep_eq_stepFlag]

theorem scanFlags_spec (L : List Bool) :
    ∀ (i start : Nat) (acc : List (Nat × Nat)),
      (scanFinalize (i + L.length) (scanFlags L i ⟨false, start, acc⟩)
          = acc ++ lossRuns L i)
      ∧ (start < i →
          scanFinalize (i + L.length) (scanFlags L i ⟨true, start, acc⟩)
            = acc ++ (start, (i - start) + (L.takeWhile (fun b => b)).length) ::
                lossRuns (L.dropWhile (fun b => b)) (i + (L.takeWhile (fun b => b)).length)) := by
  induction L with
  | nil =>
    intro i start acc
    refine ⟨by simp [scanFlags, scanFinalize, lossRuns], fun hlt => ?_⟩
    simp only [scanFlags, scanFinalize, if_pos rfl, List.takeWhile_nil, List.dropWhile_nil,
      List.length_nil, Nat.add_zero, lossRuns]
    have : i - 1 - start + 1 = i - start := by omega
    simp [this]
  | cons b rest ih =>
    intro i start acc
    constructor
    · cases b with
      | false =>
        have hstep : stepFlag ⟨false, start, acc⟩ i false = ⟨false, start, acc⟩ := by
          simp [stepFlag]
        simp only [scanFlags, hstep, lossRuns, List.length_cons]
        have h1 := (ih (i + 1) start acc).1
        rw [show i + 1 + rest.length = i + (rest.length + 1) by omega] at h1
        exact h1
      | true =>
        have hstep : stepFlag ⟨false, start, acc⟩ i true = ⟨true, i, acc⟩ := by
          simp [stepFlag]
        simp only [scanFlags, hstep, lossRuns, List.length_cons]
        have h2 := (ih (i + 1) i acc).2 (Nat.lt_succ_self i)
        have harith : i + 1 - i = 1 := by omega
        rw [show i + 1 + rest.length = i + (rest.length + 1) by omega] at h2
        rw [h2, harith]
        have : 1 + (rest.takeWhile (fun b => b)).length
            = (rest.takeWhile (fun b => b)).length + 1 := by omega
        rw [this]
        have : i + 1 + (rest.takeWhile (fun b => b)).length
            = i + ((rest.takeWhile (fun b => b)).length + 1) := by omega
        rw [this]
        rw [Nat.add_assoc]
    · intro hlt
      cases b with
      | true =>
        have hstep : stepFlag ⟨true, start, acc⟩ i true = ⟨true, start, acc⟩ := by
          simp [stepFlag]
        simp only [scanFlags, hstep, List.length_cons, List.takeWhile_cons, List.dropWhile_cons]
        have h2 := (ih (i + 1) start acc).2 (Nat.lt_succ_of_lt hlt)
        rw [show i + 1 + rest.length = i + (rest.length + 1) by omega] at h2
        rw [h2]
        have e1 : i + 1 - start + (rest.takeWhile (fun b => b)).length
            = i - start + ((rest.takeWhile (fun b => b)).length + 1) := by omega
        have e2 : i + 1 + (rest.takeWhile (fun b => b)).length
            = i + ((rest.takeWhile (fun b => b)).length + 1) := by omega
        simp [e1, e2]
      | false =>
        have hstep : stepFlag ⟨true, start, acc⟩ i false
            = ⟨false, start, acc ++ [(start, i - start)]⟩ := by
          simp [stepFlag]
        simp only [scanFlags, hstep, List.length_cons, List.takeWhile_cons, List.dropWhile_cons]
        have h1 := (ih (i + 1) start (acc ++ [(start, i - start)])).1
        rw [show i + 1 + rest.length = i + (rest.length + 1) by omega] at h1
        rw [h1]
        simp [lossRuns]

/-- C2: for every non-empty buffer whose length is an exact multiple of
188, the integrity scanner `packets_with_sync_loss` returns exactly the
maximal contiguous runs of packets whose first byte is not the sync
byte 0x47, as the ordered list of (start_packet_index, count) pairs
computed by the specification function `lossRuns` on the per-packet
corruption flags: an empty list when every packet is in sync, a single
(i, 1) range when only packet i is corrupted, and a final run closed at
the buffer boundary when the loss extends through the last packet. -/
theorem packets_with_sync_loss_eq_lossRuns (buf : List Nat)
    (hne : buf ≠ []) (hmul : buf.length % TS_PACKET_SIZE = 0) :
    packets_with_sync_loss buf = lossRuns (lostFlags buf) 0 := by
  have hdef : packets_with_sync_loss buf
      = scanFinalize (buf.length / TS_PACKET_SIZE)
          ((List.range (buf.length / TS_PACKET_SIZE)).foldl (syncScanStep buf)
            ⟨false, 0, []⟩) := rfl
  rw [hdef, List.range_eq_range', foldl_range_eq_scanFlags]
  have hflags : (List.range' 0 (buf.length / TS_PACKET_SIZE)).map (flagAt buf)
      = lostFlags buf := by
    simp [lostFlags, List.range_eq_range', flagAt]
  rw [hflags]
  have hlen : (lostFlags buf).length = buf.length / TS_PACKET_SIZE := by
    simp [lostFlags]
  have := (scanFlags_spec (lostFlags buf) 0 0 []).1
  rw [Nat.zero_add, hlen] at this
  simpa using this

/-- Concrete buffer for the C2 witness: one good packet followed by
two corrupted packets. -/
def c2SampleBuf : List Nat := List.replicate 188 0x47 ++ List.replicate 376 0

/-- Witness for C2 at a concrete buffer. -/
theorem packets_with_sync_loss_eq_lossRuns_witness :
    (c2SampleBuf ≠ [] ∧ c2SampleBuf.length % TS_PACKET_SIZE = 0)
      ∧ packets_with_sync_loss c2SampleBuf = lossRuns (lostFlags c2SampleBuf) 0 := by
  have hlen : c2SampleBuf.length = 564 := by
    rw [c2SampleBuf, List.length_append, List.length_replicate, List.length_replicate]
  have h1 : c2SampleBuf ≠ [] := by
    intro h
    rw [h] at hlen
    simp at hlen
  have h2 : c2SampleBuf.length % TS_PACKET_SIZE = 0 := by
    rw [hlen]
    decide
  exact ⟨⟨h1, h2⟩, packets_with_sync_loss_eq_lossRuns c2SampleBuf h1 h2⟩

/-! ### Container Header Parser (claims C3, C4)

Embedding of `TivoDownload.get_tivo_header(f)` (tivodownload.py lines
337-345).  The input stream is a finite byte list with a read position;
`read(n)` returns up to `n` bytes (fewer only at end of stream), and a
negative count means read to the end, matching Python file semantics.
`struct.unpack_from` with format `>L` at offset 10 demands at least 14
buffer bytes and raises `struct.error` otherwise; the source has no
truncation check of its own. -/

inductive StructUnpackError where
  | insufficientBuffer
  deriving Repr, DecidableEq

def stream_read (data : List Nat) (pos : Nat) (n : Int) : List Nat × Nat :=
  if n < 0 then (data.drop pos, data.length)
  else ((data.drop pos).take n.toNat, min data.length (pos + n.toNat))

def u32be (b0 b1 b2 b3 : Nat) : Nat :=
  b0 * 16777216 + b1 * 65536 + b2 * 256 + b3

def unpack_from_u32be (buf : List Nat) (off : Nat) : Option Nat :=
  if off + 4 ≤ buf.length then
    some (u32be (buf.getD off 0) (buf.getD (off + 1) 0)
                (buf.getD (off + 2) 0) (buf.getD (off + 3) 0))
  else none

/-- `get_tivo_header`: read a 16-byte prologue, decode the declared
total header length as a big-endian 32-bit integer at byte offset 10,
read the remaining `declared - 16` bytes, and return the accumulated
header buffer together with the final stream position. -/
def get_tivo_header (data : List Nat) :
    Except StructUnpackError (List Nat × Nat) :=
  let r1 := stream_read data 0 16
  match unpack_from_u32be r1.1 10 with
  | none => .error .insufficientBuffer
  | some tivo_header_size =>
      let r2 := stream_read data r1.2 ((tivo_header_size : Int) - 16)
      .ok (r1.1 ++ r2.1, r2.2)

/-- The header length a stream declares: big-endian 32-bit integer over
bytes 10-13. -/
def declaredHeaderLength (data : List Nat) : Nat :=
  u32be (data.getD 10 0) (data.getD 11 0) (data.getD 12 0) (data.getD 13 0)

theorem getD_take_of_lt (l : List Nat) (i n : Nat) (h : i < n) :
    (l.take n).getD i 0 = l.getD i 0 := by
  simp [List.getD_eq_getElem?_getD, List.getElem?_take_of_lt h]

theorem unpack_prologue (data : List Nat) (h14 : 14 ≤ data.length) :
    unpack_from_u32be (stream_read data 0 16).1 10
      = some (declaredHeaderLength data) := by
  have hlen : ((stream_read data 0 16).1).length = min 16 data.length := by
    simp [stream_read, List.length_take]
  have h1 : (stream_read data 0 16).1 = data.take 16 := by
    simp [stream_read]
  rw [unpack_from_u32be, h1]
  have hle : 10 + 4 ≤ (data.take 16).length := by
    simp only [List.length_take]
    omega
  rw [if_pos hle]
  rw [getD_take_of_lt data 10 16 (by omega), getD_take_of_lt data 11 16 (by omega),
    getD_take_of_lt data 12 16 (by omega), getD_take_of_lt data 13 16 (by omega)]
  rfl

/-- C3 (amended): for every input stream that contains the whole
declared header — at least 16 bytes are available, the declared length
L (big-endian 32-bit at offset 10) satisfies L ≥ 16, and the stream
holds at least L bytes — the parser consumes exactly the first L bytes,
returns them as a buffer of length L, and leaves the position at L. -/
theorem get_tivo_header_complete_stream (data : List Nat)
    (h16 : 16 ≤ data.length) (hL16 : 16 ≤ declaredHeaderLength data)
    (havail : declaredHeaderLength data ≤ data.length) :
    get_tivo_header data
        = .ok (data.take (declaredHeaderLength data), declaredHeaderLength data)
      ∧ (data.take (declaredHeaderLength data)).length = declaredHeaderLength data := by
  have h14 : 14 ≤ data.length := by omega
  have hu := unpack_prologue data h14
  constructor
  · rw [get_tivo_header]
    simp only [hu]
    have hpos1 : (stream_read data 0 16).2 = 16 := by
      simp only [stream_read]
      rw [if_neg (by omega)]
      simp only [Int.toNat_ofNat, Nat.zero_add]
      omega
    have hbuf1 : (stream_read data 0 16).1 = data.take 16 := by
      simp [stream_read]
    have hneg : ¬ ((declaredHeaderLength data : Int) - 16 < 0) := by omega
    have htn : ((declaredHeaderLength data : Int) - 16).toNat
        = declaredHeaderLength data - 16 := by omega
    rw [hbuf1, hpos1]
    simp only [stream_read, if_neg hneg, htn]
    rw [← List.take_add]
    have h1 : 16 + (declaredHeaderLength data - 16) = declaredHeaderLength data := by omega
    have h2 : data.length ⊓ declaredHeaderLength data = declaredHeaderLength data := by
      omega
    rw [h1, h2]
  · rw [List.length_take]
    omega

/-- Byte stream for the C3 counterexample: exactly 16 bytes, declaring
a 17-byte header. -/
def c3ShortStream : List Nat :=
  [0, 0, 0, 0, 0, 0, 0, 0, 0, 0, 0, 0, 0, 17, 0, 0]

/-- C3 counterexample: a stream whose first 16 bytes are available and
which declares header length 17 ≥ 16, yet the parser returns a buffer
of length 16 (not 17) and leaves the position at 16 (not 17), because
the stream ends early.  The claim as stated (assuming only the first 16
bytes) is therefore false. -/
theorem get_tivo_header_short_stream_counterexample :
    16 ≤ c3ShortStream.length
      ∧ declaredHeaderLength c3ShortStream = 17
      ∧ get_tivo_header c3ShortStream = .ok (c3ShortStream, 16)
      ∧ c3ShortStream.length = 16 := by
  refine ⟨by decide, by decide, ?_, by decide⟩
  rfl

/-! ### Decimal rendering

Python renders the probe counters with `'{}'.format(count)`, i.e. the
standard decimal representation, modelled by `Nat.repr`.  The probing
loops of the Output Namer terminate because distinct counters render to
distinct strings; this section proves that injectivity. -/

/-- Reference decimal digit list of a natural number. -/
def decChars (n : Nat) : List Char :=
  if n < 10 then [Nat.digitChar n]
  else decChars (n / 10) ++ [Nat.digitChar (n % 10)]
termination_by n
decreasing_by
  exact Nat.div_lt_self (by omega) (by omega)

theorem decChars_ne_nil (n : Nat) : decChars n ≠ [] := by
  rw [decChars]
  by_cases h : n < 10 <;> simp [h]

theorem decChars_of_lt (n : Nat) (h : n < 10) : decChars n = [Nat.digitChar n] := by
  rw [decChars, if_pos h]

theorem decChars_of_ge (n : Nat) (h : ¬ n < 10) :
    decChars n = decChars (n / 10) ++ [Nat.digitChar (n % 10)] := by
  conv_lhs => rw [decChars]
  rw [if_neg h]

theorem toDigitsCore_eq_decChars :
    ∀ (f n : Nat) (acc : List Char), n < f →
      Nat.toDigitsCore 10 f n acc = decChars n ++ acc := by
  intro f
  induction f with
  | zero => intro n acc h; omega
  | succ f ih =>
    intro n acc h
    rw [Nat.toDigitsCore]
    by_cases hz : n / 10 = 0
    · have hn : n < 10 := by omega
      simp only [hz, if_pos rfl]
      rw [decChars_of_lt n hn, Nat.mod_eq_of_lt hn]
      rfl
    · simp only [hz, if_neg hz]
      have hlt : n / 10 < f := by
        have := Nat.div_lt_self (by omega : 0 < n) (by omega : 1 < 10)
        omega
      rw [ih (n / 10) (Nat.digitChar (n % 10) :: acc) hlt]
      rw [decChars_of_ge n (by omega)]
      simp

theorem repr_eq_decChars (n : Nat) : Nat.repr n = (decChars n).asString := by
  rw [Nat.repr, Nat.toDigits, toDigitsCore_eq_decChars (n + 1) n [] (Nat.lt_succ_self n)]
  simp

theorem digitChar_inj (a b : Nat) (ha : a < 10) (hb : b < 10)
    (h : Nat.digitChar a = Nat.digitChar b) : a = b := by
  interval_cases a <;> interval_cases b <;> simp_all [Nat.digitChar]

theorem decChars_inj : ∀ (n m : Nat), decChars n = decChars m → n = m := by
  intro n
  induction n using Nat.strong_induction_on with
  | _ n ih =>
    intro m h
    by_cases hn : n < 10 <;> by_cases hm : m < 10
    · rw [decChars_of_lt n hn, decChars_of_lt m hm] at h
      exact digitChar_inj n m hn hm (by simpa using h)
    · rw [decChars_of_lt n hn, decChars_of_ge m hm] at h
      have hlen := congrArg List.length h
      cases hcs : decChars (m / 10) with
      | nil => exact absurd hcs (decChars_ne_nil (m / 10))
      | cons c cs =>
        rw [hcs] at hlen
        simp [List.length_append] at hlen
    · rw [decChars_of_ge n hn, decChars_of_lt m hm] at h
      have hlen := congrArg List.length h
      cases hcs : decChars (n / 10) with
      | nil => exact absurd hcs (decChars_ne_nil (n / 10))
      | cons c cs =>
        rw [hcs] at hlen
        simp [List.length_append] at hlen
    · rw [decChars_of_ge n hn, decChars_of_ge m hm] at h
      have hpair := List.append_inj' h (by simp)
      have hdiv : n / 10 = m / 10 :=
        ih (n / 10) (Nat.div_lt_self (by omega) (by omega)) (m / 10) hpair.1
      have hmod : n % 10 = m % 10 := by
        have h2 := hpair.2
        simp only [List.cons.injEq] at h2
        exact digitChar_inj _ _ (Nat.mod_lt n (by omega)) (Nat.mod_lt m (by omega)) h2.1
      omega

theorem nat_repr_inj : Function.Injective Nat.repr := by
  intro n m h
  rw [repr_eq_decChars, repr_eq_decChars] at h
  apply decChars_inj
  have := congrArg String.data h
  simpa [List.asString] using this

/-- Strings of the form `prefix ++ decimal ++ suffix` determine the
decimal counter. -/
theorem repr_sandwich_inj (p s : String) :
    Function.Injective (fun c : Nat => p ++ Nat.repr c ++ s) := by
  intro a b h
  simp only at h
  have hdata := congrArg String.data h
  simp only [String.data_append, List.append_assoc] at hdata
  have h1 := List.append_cancel_left hdata
  have h2 := List.append_inj' h1 rfl
  exact nat_repr_inj (String.ext h2.1)

/-! ### Output Namer probing (claim C8)

Embedding of the uniqueness probe at the end of
`TivoDownload.get_out_file` (tivodownload.py lines 574-588).  The
filesystem is modelled by the list of paths for which
`os.path.isfile` answers true.  The loop
`count = 1; while isfile(candidate): count += 1` returns the candidate
of the least count (starting from 1) that names no existing file; that
least count exists because distinct counts give distinct candidate
strings and only finitely many paths exist. -/

theorem exists_free_nat (cand : Nat → String) (hinj : Function.Injective cand)
    (fs : List String) (start : Nat) : ∃ k, cand (start + k) ∉ fs := by
  by_contra hall
  push_neg at hall
  have hg : Function.Injective (fun i : Fin (fs.length + 1) => cand (start + i.val)) := by
    intro i j hij
    have := hinj hij
    exact Fin.ext (by omega)
  have hsub : Finset.image (fun i : Fin (fs.length + 1) => cand (start + i.val))
      Finset.univ ⊆ fs.toFinset := by
    intro x hx
    simp only [Finset.mem_image, Finset.mem_univ, true_and] at hx
    obtain ⟨i, rfl⟩ := hx
    exact List.mem_toFinset.mpr (hall i.val)
  have hcard := Finset.card_le_card hsub
  rw [Finset.card_image_of_injective Finset.univ hg, Finset.card_univ, Fintype.card_fin] at hcard
  have := List.toFinset_card_le fs
  omega

/-- The candidate output path probed at `count`: for count 1 the middle
list element is the empty string, afterwards it is a parenthesised
counter.  `os.path.join` is modelled as concatenation with a single
path separator. -/
def out_file_candidate (togo_path filename file_ext : String) (count : Nat) : String :=
  if count = 1 then togo_path ++ "/" ++ (filename ++ "" ++ file_ext)
  else togo_path ++ "/" ++ (filename ++ (" (" ++ Nat.repr count ++ ")") ++ file_ext)

theorem out_file_candidate_inj (togo_path filename file_ext : String) :
    Function.Injective (out_file_candidate togo_path filename file_ext) := by
  intro a b h
  by_cases ha : a = 1 <;> by_cases hb : b = 1
  · omega
  · exfalso
    rw [out_file_candidate, out_file_candidate, if_pos ha, if_neg hb] at h
    have hdata := congrArg String.data h
    have hlen := congrArg List.length hdata
    simp only [String.data_append, List.length_append, List.length_cons,
      List.length_nil] at hlen
    have hrep : 1 ≤ (Nat.repr b).data.length := by
      rw [repr_eq_decChars]
      cases hcs : decChars b with
      | nil => exact absurd hcs (decChars_ne_nil b)
      | cons c cs => simp [List.asString, hcs]
    omega
  · exfalso
    rw [out_file_candidate, out_file_candidate, if_neg ha, if_pos hb] at h
    have hdata := congrArg String.data h
    have hlen := congrArg List.length hdata
    simp only [String.data_append, List.length_append, List.length_cons,
      List.length_nil] at hlen
    have hrep : 1 ≤ (Nat.repr a).data.length := by
      rw [repr_eq_decChars]
      cases hcs : decChars a with
      | nil => exact absurd hcs (decChars_ne_nil a)
      | cons c cs => simp [List.asString, hcs]
    omega
  · rw [out_file_candidate, out_file_candidate, if_neg ha, if_neg hb] at h
    have h2 : togo_path ++ "/" ++ filename ++ " (" ++ Nat.repr a ++ (")" ++ file_ext)
        = togo_path ++ "/" ++ filename ++ " (" ++ Nat.repr b ++ (")" ++ file_ext) := by
      have := congrArg String.data h
      apply String.ext
      simpa [String.data_append, List.append_assoc] using this
    exact repr_sandwich_inj (togo_path ++ "/" ++ filename ++ " (") (")" ++ file_ext) h2

/-- Existence of a free probe count for `get_out_file`. -/
theorem out_file_exists_free (fs : List String) (togo_path filename file_ext : String) :
    ∃ k, out_file_candidate togo_path filename file_ext (1 + k) ∉ fs :=
  exists_free_nat _ (out_file_candidate_inj togo_path filename file_ext) fs 1

/-- The uniqueness probe of `get_out_file`: the candidate of the least
count from 1 upwards that is not an existing file. -/
def get_out_file (fs : List String) (togo_path filename file_ext : String) : String :=
  out_file_candidate togo_path filename file_ext
    (1 + Nat.find (out_file_exists_free fs togo_path filename file_ext))

theorem get_out_file_eq (fs : List String) (togo_path filename file_ext : String)
    (c : Nat) (hc1 : 1 ≤ c)
    (hfree : out_file_candidate togo_path filename file_ext c ∉ fs)
    (hbusy : ∀ j, 1 ≤ j → j < c → out_file_candidate togo_path filename file_ext j ∈ fs) :
    get_out_file fs togo_path filename file_ext
      = out_file_candidate togo_path filename file_ext c := by
  rw [get_out_file]
  congr 1
  have hfind : Nat.find (out_file_exists_free fs togo_path filename file_ext) = c - 1 := by
    rw [Nat.find_eq_iff]
    constructor
    · have : 1 + (c - 1) = c := by omega
      rw [this]
      exact hfree
    · intro n hn hnot
      exact hnot (hbusy (1 + n) (by omega) (by omega))
  omega

/-- C8 (amended): the output namer returns a path that names no
existing file, probing candidates with an increasing numeric suffix;
invoking it a second time with identical inputs against a filesystem
already containing the first result yields a previously-unused path
whose numeric suffix counter is strictly larger than the first's (the
counter increments monotonically).  The second path need not be
lexicographically later than the first (see the counterexample). -/
theorem get_out_file_monotone_probe (fs : List String) (togo_path filename file_ext : String) :
    get_out_file fs togo_path filename file_ext ∉ fs
    ∧ (∃ c₁ c₂ : Nat, 1 ≤ c₁ ∧ c₁ < c₂
        ∧ get_out_file fs togo_path filename file_ext
            = out_file_candidate togo_path filename file_ext c₁
        ∧ get_out_file (get_out_file fs togo_path filename file_ext :: fs)
              togo_path filename file_ext
            = out_file_candidate togo_path filename file_ext c₂
        ∧ get_out_file (get_out_file fs togo_path filename file_ext :: fs)
              togo_path filename file_ext
            ∉ get_out_file fs togo_path filename file_ext :: fs) := by
  have h1 := Nat.find_spec (out_file_exists_free fs togo_path filename file_ext)
  refine ⟨h1, ?_⟩
  set k₁ := Nat.find (out_file_exists_free fs togo_path filename file_ext) with hk₁
  set r₁ := get_out_file fs togo_path filename file_ext with hr₁
  set fs₂ := r₁ :: fs with hfs₂
  have h2 := Nat.find_spec (out_file_exists_free fs₂ togo_path filename file_ext)
  set k₂ := Nat.find (out_file_exists_free fs₂ togo_path filename file_ext) with hk₂
  have hlt : k₁ < k₂ := by
    rcases Nat.lt_trichotomy k₂ k₁ with h | h | h
    · exfalso
      have hbusy := Nat.find_min (out_file_exists_free fs togo_path filename file_ext) h
      simp only [not_not] at hbusy
      exact h2 (List.mem_cons_of_mem _ hbusy)
    · exfalso
      apply h2
      rw [h]
      have : r₁ = out_file_candidate togo_path filename file_ext (1 + k₁) := by
        rw [hr₁, get_out_file]
      rw [← this]
      exact List.mem_cons_self _ _
    · exact h
  refine ⟨1 + k₁, 1 + k₂, by omega, by omega, ?_, ?_, h2⟩
  · rw [hr₁, get_out_file]
  · rw [get_out_file]

/-- C8 counterexample: with an empty directory the first call returns
"/tivo/Title.tivo"; a second call against a directory containing that
file returns "/tivo/Title (2).tivo", which is previously unused but is
lexicographically EARLIER than the first result (character lists are
compared lexicographically), refuting the claimed monotonicity. -/
theorem get_out_file_not_lex_later_counterexample :
    get_out_file [] "/tivo" "Title" ".tivo" = "/tivo/Title.tivo"
    ∧ get_out_file ["/tivo/Title.tivo"] "/tivo" "Title" ".tivo" = "/tivo/Title (2).tivo"
    ∧ ¬ ("/tivo/Title.tivo".data < "/tivo/Title (2).tivo".data) := by
  refine ⟨?_, ?_, ?_⟩
  · rw [get_out_file_eq [] "/tivo" "Title" ".tivo" 1 (by omega) (by simp) (by omega)]
    rfl
  · rw [get_out_file_eq ["/tivo/Title.tivo"] "/tivo" "Title" ".tivo" 2 (by omega) ?_ ?_]
    · rfl
    · intro hmem
      simp only [List.mem_singleton, out_file_candidate] at hmem
      have := congrArg String.data hmem
      revert this
      decide
    · intro j hj1 hj2
      have hj : j = 1 := by omega
      subst hj
      simp [out_file_candidate]
  · decide

/-- Complete 17-byte header stream for the C3 witness. -/
def c3FullStream : List Nat :=
  [0, 0, 0, 0, 0, 0, 0, 0, 0, 0, 0, 0, 0, 17, 0, 0, 5]

/-- Witness for C3 at a concrete complete stream. -/
theorem get_tivo_header_complete_stream_witness :
    (16 ≤ c3FullStream.length ∧ 16 ≤ declaredHeaderLength c3FullStream
        ∧ declaredHeaderLength c3FullStream ≤ c3FullStream.length)
      ∧ (get_tivo_header c3FullStream
            = .ok (c3FullStream.take (declaredHeaderLength c3FullStream),
                   declaredHeaderLength c3FullStream)
          ∧ (c3FullStream.take (declaredHeaderLength c3FullStream)).length
              = declaredHeaderLength c3FullStream) := by
  have h1 : 16 ≤ c3FullStream.length := by decide
  have h2 : 16 ≤ declaredHeaderLength c3FullStream := by decide
  have h3 : declaredHeaderLength c3FullStream ≤ c3FullStream.length := by decide
  exact ⟨⟨h1, h2, h3⟩, get_tivo_header_complete_stream c3FullStream h1 h2 h3⟩

/-! ### Download items, attempts and the body-copy loop
(claims C1, C4, C5, C6, C10)

The mutable `status` dictionary of one queued transfer
(togo.py `ToGo.ToGo` creates it; tivodownload.py mutates it) becomes a
fixed-shape structure.  Attempt records keep the fields the claims
inspect; the wall-clock fields (`start_time`, `download_time`) are
driven by the OS clock and are abstracted away. -/

/-- One attempt record, as appended to `status['download_attempts']`.
`error_packets` entries are (count, start byte, end byte). -/
structure DownloadAttempt where
  status : String
  size : Nat
  error_packet_count : Nat
  error_packets : List (Nat × Nat × Nat)
  deriving Repr, DecidableEq

/-- The `status` dictionary of one queued download. -/
structure DownloadItem where
  url : String
  ts_format : Bool
  decode : Bool
  save : Bool
  sortable : Bool
  running : Bool
  queued : Bool
  finished : Bool
  error : String
  rate : Nat
  size : Nat
  retry : Nat
  ts_error_packets : List (Nat × Nat)
  download_attempts : List DownloadAttempt
  best_file : String
  best_error_count : Nat
  best_attempt_index : Nat
  outfile : String
  deriving Repr, DecidableEq

/-- The per-device `ts_error_mode` configuration string. -/
inductive TsErrorMode where
  | ignore
  | best
  | reject
  deriving Repr, DecidableEq

/-- `reduce(lambda total, x: total + x[1], packets, 0)`: total error
packet count of a list of loss ranges. -/
def ts_error_count_of (l : List (Nat × Nat)) : Nat :=
  l.foldl (fun total x => total + x.2) 0

/-- The retry entry built from a completed item
(tivodownload.py lines 324-329): `status.copy()` followed by
`update(rate=0, size=0, queued=True, retry=retry+1,
ts_error_packets=[])`. -/
def make_retry_status (status : DownloadItem) : DownloadItem :=
  { status with
    rate := 0,
    size := 0,
    queued := true,
    retry := status.retry + 1,
    ts_error_packets := [] }

/-- Oracle for the 1-second progress-update clock inside the body
loop: whether the `elapsed >= 1` guard fires after chunk `j`, and the
elapsed value it sees then. -/
structure UpdateClock where
  tick : Nat → Bool
  elapsedAt : Nat → Nat

/-- Mutable locals of `copy_tivo_body_to` together with the item being
downloaded. -/
structure BodyState where
  st : DownloadItem
  bytes_read : Nat
  bytes_written : Nat
  last_interval_read : Nat
  download_aborted : Bool
  retry_download : Bool
  raised : Bool
  deriving Repr, DecidableEq

/-- The transport-stream scan portion of one iteration of the
body-copy loop of `TivoDownload.copy_tivo_body_to` (tivodownload.py
lines 388-429) for a non-empty chunk `output`, returning the updated
item, the retry flag and the abort flag.  Note the source computes
`output_start_packet = bytes_read / TS_PACKET_SIZE` only after
`bytes_read` has been advanced past the current chunk.  The enclosing
iteration (`body_chunk_step`, source lines 380-444) then performs the
write and the rate/size progress update. -/
def body_scan (mode : TsErrorMode) (ts_max_retries : Nat) (s : BodyState)
    (bytes_read : Nat) (output : List Nat) : DownloadItem × Bool × Bool :=
  if s.st.ts_format then
    let buf_packets_lost := packets_with_sync_loss output
    if buf_packets_lost.isEmpty then (s.st, s.retry_download, false)
    else
      let output_start_packet := bytes_read / TS_PACKET_SIZE
      let new_packets_lost := buf_packets_lost.map (fun x => (x.1 + output_start_packet, x.2))
      let st1 : DownloadItem :=
        { s.st with ts_error_packets := s.st.ts_error_packets ++ new_packets_lost }
      let cnt := ts_error_count_of st1.ts_error_packets
      if mode ≠ TsErrorMode.ignore then
        let retry1 := if st1.retry < ts_max_retries then true else s.retry_download
        if mode = TsErrorMode.best then
          if st1.retry > 0 ∧ st1.best_file ≠ "" ∧ st1.best_error_count ≤ cnt then
            ({ st1 with
                running := false,
                error := "TS sync error. Best(" ++ Nat.repr st1.best_error_count
                          ++ ") < Current(" ++ Nat.repr cnt ++ ")" },
             retry1, true)
          else (st1, retry1, false)
        else
          ({ st1 with running := false, error := "TS sync error. Mode: reject" },
           retry1, true)
      else (st1, s.retry_download, false)
  else (s.st, s.retry_download, false)

def body_chunk_step (mode : TsErrorMode) (ts_max_retries : Nat) (clock : UpdateClock)
    (j : Nat) (s : BodyState) (output : List Nat) : BodyState :=
  let bytes_read := s.bytes_read + output.length
  let lir := s.last_interval_read + output.length
  match body_scan mode ts_max_retries s bytes_read output with
  | (st1, retry1, aborted1) =>
    if aborted1 then
      { st := st1, bytes_read := bytes_read, bytes_written := s.bytes_written,
        last_interval_read := lir, download_aborted := true,
        retry_download := retry1, raised := s.raised }
    else
      let bw := s.bytes_written + output.length
      if clock.tick j then
        { st := { st1 with rate := lir * 8 / clock.elapsedAt j, size := st1.size + lir },
          bytes_read := bytes_read, bytes_written := bw, last_interval_read := 0,
          download_aborted := false, retry_download := retry1, raised := s.raised }
      else
        { st := st1, bytes_read := bytes_read, bytes_written := bw,
          last_interval_read := lir, download_aborted := false,
          retry_download := retry1, raised := s.raised }

/-- The body-copy loop over successive reads.  The end of the chunk
list (or an empty read) models end of stream; `exc_at = some j` models
an exception raised while handling chunk `j` (any of the read, the
write, or the decoder pipe may raise inside the enclosing `try`). -/
def copy_body_loop (mode : TsErrorMode) (ts_max_retries : Nat) (clock : UpdateClock)
    (exc_at : Option Nat) : List (List Nat) → Nat → BodyState → BodyState
  | [], _, s => s
  | output :: rest, j, s =>
    if exc_at = some j then { s with raised := true }
    else if output.isEmpty then s
    else
      let s1 := body_chunk_step mode ts_max_retries clock j s output
      if s1.download_aborted then s1
      else copy_body_loop mode ts_max_retries clock exc_at rest (j + 1) s1

/-- `TivoDownload.copy_tivo_body_to` (tivodownload.py lines 348-445). -/
def copy_tivo_body_to (mode : TsErrorMode) (ts_max_retries : Nat) (clock : UpdateClock)
    (exc_at : Option Nat) (st : DownloadItem) (chunks : List (List Nat)) : BodyState :=
  copy_body_loop mode ts_max_retries clock exc_at chunks 0
    { st := st, bytes_read := 0, bytes_written := 0, last_interval_read := 0,
      download_aborted := false, retry_download := false, raised := false }

/-! ### Renaming a completed file that had sync errors

Embedding of tivodownload.py lines 264-283: the output file name gains
an error/attempt tag before its extension.  Python splits on every dot
and rejoins with the empty string, so all original dots except the one
reinserted before the extension are dropped; and because the source
re-checks the stale name before recomputing the candidate, the counter
2 candidate is never actually probed (counting restarts at 3). -/

/-- Python `split('.')`, modelled on the character list (the
separator is the single ASCII dot), so that concrete instances reduce
inside the kernel. -/
def split_on_dot (s : String) : List String :=
  (s.data.splitOn (Char.ofNat 46)).map List.asString

def errorTag (cnt att : Nat) : String :=
  " (^" ++ Nat.repr cnt ++ "_" ++ Nat.repr att ++ ")"

def rename_base (outfile : String) (cnt att : Nat) : String :=
  String.join (split_on_dot outfile).dropLast ++ errorTag cnt att
    ++ "." ++ (split_on_dot outfile).getLastD ""

def rename_candidate (outfile : String) (cnt att c : Nat) : String :=
  String.join (split_on_dot outfile).dropLast ++ errorTag cnt att
    ++ (" (" ++ Nat.repr c ++ ")") ++ "." ++ (split_on_dot outfile).getLastD ""

theorem rename_candidate_inj (outfile : String) (cnt att : Nat) :
    Function.Injective (rename_candidate outfile cnt att) := by
  intro a b h
  apply repr_sandwich_inj
    (String.join (split_on_dot outfile).dropLast ++ errorTag cnt att ++ " (")
    (")" ++ ("." ++ (split_on_dot outfile).getLastD ""))
  apply String.ext
  have hdata := congrArg String.data h
  simp only [rename_candidate, String.data_append, List.append_assoc] at hdata
  simp only [String.data_append, List.append_assoc]
  exact hdata

theorem rename_exists_free (fs : List String) (outfile : String) (cnt att : Nat) :
    ∃ k, rename_candidate outfile cnt att (3 + k) ∉ fs :=
  exists_free_nat _ (rename_candidate_inj outfile cnt att) fs 3

def rename_with_errors (fs : List String) (outfile : String) (cnt att : Nat) : String :=
  let base := rename_base outfile cnt att
  if base ∈ fs then
    rename_candidate outfile cnt att (3 + Nat.find (rename_exists_free fs outfile cnt att))
  else base

/-- The sync-error log path: the extension of the output file replaced
by `syncerr.yaml` (tivodownload.py lines 480-483). -/
def syncerr_filename (outfile : String) : String :=
  String.intercalate "." ((split_on_dot outfile).dropLast ++ ["syncerr.yaml"])

/-! ### One download attempt (tivodownload.py `get_1st_queued_file`) -/

/-- The externally-determined events of one attempt: whether
`tivo_open` raised (and its message), the result of the header read
(`none` models `get_tivo_header` raising inside the `try` block), the
successive body reads, an optional exception index inside the body
loop, the progress-update clock, and the attempt's elapsed seconds. -/
structure AttemptInput where
  open_exc : Option String
  header_result : Option (List Nat)
  chunks : List (List Nat)
  exc_at : Option Nat
  clock : UpdateClock
  attempt_elapsed : Nat

/-- Result of one attempt: the processed head item, the queue behind it
(with a retry entry inserted at its front when one was scheduled), and
the filesystem contents. -/
structure AttemptResult where
  item : DownloadItem
  tail : List DownloadItem
  fs : List String

/-- The epilogue of `get_1st_queued_file` (tivodownload.py lines
215-334): build the attempt record, classify it, keep or remove files,
update the best-attempt tracking, append the record, and either mark
the item finished (writing the sync-error log) or push a retry entry
onto the front of the remaining queue. -/
def finish_attempt (mode : TsErrorMode) (ts_max_retries : Nat)
    (stA : DownloadItem) (download_aborted retry_download sync_loss : Bool)
    (tivo_header_size : Nat) (attempt_elapsed : Nat) (outfile : String)
    (tail : List DownloadItem) (fs2 : List String) : AttemptResult :=
  let elapsed := max attempt_elapsed 1
  let stB : DownloadItem := { stA with rate := stA.size * 8 / elapsed }
  let attempt0 : DownloadAttempt :=
    { status := "unknown",
      size := stB.size,
      error_packet_count := ts_error_count_of stB.ts_error_packets,
      error_packets :=
        if sync_loss then
          stB.ts_error_packets.map (fun lost =>
            (lost.2, tivo_header_size + lost.1 * TS_PACKET_SIZE,
             tivo_header_size + (lost.1 + lost.2) * TS_PACKET_SIZE))
        else [] }
  let after :=
    if download_aborted then
      let a_status := if sync_loss then "sync_errors_aborted" else "aborted"
      ({ stB with download_attempts :=
            stB.download_attempts ++ [{ attempt0 with status := a_status }] },
       fs2.erase outfile)
    else
      let ts_error_count := attempt0.error_packet_count
      let stC : DownloadItem := { stB with running := false }
      let fs3 := if mode = TsErrorMode.best ∧ stC.best_file ∈ fs2 then
                   fs2.erase stC.best_file
                 else fs2
      let renamed :=
        if sync_loss then
          let new_outfile := rename_with_errors fs3 outfile ts_error_count (stC.retry + 1)
          (new_outfile, new_outfile :: fs3.erase outfile)
        else (outfile, fs3)
      let a_status := if sync_loss then "sync_errors_saved" else "succeeded"
      let stD := if stC.best_file = "" ∨ ts_error_count < stC.best_error_count then
                   { stC with best_file := renamed.1, best_error_count := ts_error_count,
                              best_attempt_index := stC.download_attempts.length }
                 else stC
      ({ stD with download_attempts :=
            stD.download_attempts ++ [{ attempt0 with status := a_status }] },
       renamed.2)
  match after with
  | (stE, fs4) =>
    if retry_download then
      { item := stE, tail := make_retry_status stE :: tail, fs := fs4 }
    else
      let stF : DownloadItem := { stE with finished := true }
      let fs5 := if syncerr_filename stF.outfile ∉ fs4 then
                   syncerr_filename stF.outfile :: fs4
                 else fs4
      { item := stF, tail := tail, fs := fs5 }

/-- The streamed part of one attempt inside the `try` block
(tivodownload.py lines 179-214): parse the header (or catch its
exception), copy the body (or catch an exception inside it), then
derive `sync_loss` (false whenever an exception was caught, because
the source assigns it only after the body copy finishes), the abort
flag and the retry flag, and remember the header size.  Returns
(status, download_aborted, retry_download, sync_loss,
tivo_header_size). -/
def attempt_pre (mode : TsErrorMode) (ts_max_retries : Nat) (inp : AttemptInput)
    (st1 : DownloadItem) : DownloadItem × Bool × Bool × Bool × Nat :=
  match inp.header_result with
  | none =>
      ({ st1 with error := "Error downloading file: struct.error", running := false },
       true, decide (st1.retry < ts_max_retries), false, 0)
  | some hdr =>
      let st2 : DownloadItem := { st1 with size := hdr.length }
      let body := copy_tivo_body_to mode ts_max_retries inp.clock inp.exc_at st2 inp.chunks
      if body.raised then
        ({ body.st with error := "Error downloading file: exception", running := false },
         true, decide (body.st.retry < ts_max_retries), false, hdr.length)
      else
        let st3 := if body.st.running ∧ body.st.ts_error_packets.isEmpty then
                     { body.st with error := "" }
                   else body.st
        (st3, body.download_aborted, body.retry_download,
         !body.st.ts_error_packets.isEmpty, hdr.length)

/-- `TivoDownload.get_1st_queued_file` (tivodownload.py lines 106-334)
applied to the head item `st0` of the queue, with `tail` the rest of
the queue.  `outfile` is the destination resolved by `get_out_file`
(modelled separately); the filesystem is the list `fs` of existing
paths. -/
def run_attempt (mode : TsErrorMode) (ts_max_retries : Nat) (inp : AttemptInput)
    (outfile : String) (st0 : DownloadItem) (tail : List DownloadItem)
    (fs : List String) : AttemptResult :=
  let st1 : DownloadItem := { st0 with running := true, queued := false, outfile := outfile }
  let fs1 := if st1.save ∧ (outfile ++ ".txt") ∉ fs then (outfile ++ ".txt") :: fs else fs
  match inp.open_exc with
  | some msg =>
      { item := { st1 with running := false, error := msg }, tail := tail, fs := fs1 }
  | none =>
    let fs2 := if outfile ∉ fs1 then outfile :: fs1 else fs1
    match attempt_pre mode ts_max_retries inp st1 with
    | (stA, download_aborted, retry_download, sync_loss, tivo_header_size) =>
      finish_attempt mode ts_max_retries stA download_aborted retry_download sync_loss
        tivo_header_size inp.attempt_elapsed outfile tail fs2

/-- C10: constructing a retry entry resets exactly rate, size, queued,
retry and ts_error_packets (rate=0, size=0, queued=true, retry+1, empty
loss-range list); every other field — error, outfile, best_file,
best_error_count, best_attempt_index, the accumulated
download_attempts, and the immutable request fields — keeps the value
of the completed item, so earlier attempts stay visible on the retried
item. -/
theorem make_retry_status_frame (st : DownloadItem) :
    (make_retry_status st).rate = 0
    ∧ (make_retry_status st).size = 0
    ∧ (make_retry_status st).queued = true
    ∧ (make_retry_status st).retry = st.retry + 1
    ∧ (make_retry_status st).ts_error_packets = []
    ∧ (make_retry_status st).url = st.url
    ∧ (make_retry_status st).ts_format = st.ts_format
    ∧ (make_retry_status st).decode = st.decode
    ∧ (make_retry_status st).save = st.save
    ∧ (make_retry_status st).sortable = st.sortable
    ∧ (make_retry_status st).running = st.running
    ∧ (make_retry_status st).finished = st.finished
    ∧ (make_retry_status st).error = st.error
    ∧ (make_retry_status st).download_attempts = st.download_attempts
    ∧ (make_retry_status st).best_file = st.best_file
    ∧ (make_retry_status st).best_error_count = st.best_error_count
    ∧ (make_retry_status st).best_attempt_index = st.best_attempt_index
    ∧ (make_retry_status st).outfile = st.outfile :=
  ⟨rfl, rfl, rfl, rfl, rfl, rfl, rfl, rfl, rfl, rfl, rfl, rfl, rfl, rfl, rfl, rfl, rfl, rfl⟩

/-- A fresh queue entry, following the dictionary built by
`ToGo.ToGo` (togo.py lines 1073-1087); the refactored downloader
additionally expects the loss-range list, the attempt list, the best
attempt index and the output path, initialised empty here. -/
def initial_status (theurl : String) (decode save ts_format sortable : Bool) : DownloadItem :=
  { url := theurl, running := false, queued := true, finished := false,
    decode := decode, save := save, ts_format := ts_format, sortable := sortable,
    error := "", rate := 0, size := 0, retry := 0,
    ts_error_packets := [], download_attempts := [],
    best_file := "", best_error_count := 0, best_attempt_index := 0, outfile := "" }

set_option maxRecDepth 8192 in
/-- C6: the loss ranges accumulated on the item are offset by the
packet count of the current chunk.  With a single 188-byte body chunk
whose only packet is corrupted, the scanner correctly reports the
within-chunk range (0, 1), but `copy_tivo_body_to` records (1, 1)
because `bytes_read` is advanced past the chunk before
`output_start_packet = bytes_read / TS_PACKET_SIZE` is computed; the
real global index of the corrupted body packet (packets read before the
chunk, 0, plus the within-chunk start, 0) is 0, not 1. -/
theorem copy_body_records_shifted_loss_range :
    packets_with_sync_loss (List.replicate 188 0) = [(0, 1)]
    ∧ (copy_tivo_body_to TsErrorMode.ignore 0 ⟨fun _ => false, fun _ => 1⟩ none
          (initial_status "u" false false true false)
          [List.replicate 188 0]).st.ts_error_packets
        = [(1, 1)]
    ∧ (0 : Nat) + 0 ≠ 1 := by
  refine ⟨?_, ?_, by omega⟩
  · rfl
  · rfl

/-! ### Unqueue handling (claim C9)

Embedding of `ToGo.remove_from_queue` (togo.py lines 1146-1161): a
linear search leaves `q_pos` at the index of the first entry whose url
matches, or at `len(queue)` when none does; the subsequent
`queue[q_pos]` subscript then raises IndexError on a miss. -/

inductive RemoveResult where
  | ok (queue : List DownloadItem)
  | indexError
  deriving Repr, DecidableEq

def remove_from_queue (url : String) (queue : List DownloadItem) : RemoveResult :=
  let q_pos := queue.findIdx (fun status => status.url == url)
  if h : q_pos < queue.length then
    if (queue.get ⟨q_pos, h⟩).running then RemoveResult.ok queue
    else RemoveResult.ok (queue.eraseIdx q_pos)
  else RemoveResult.indexError

/-- C9: `remove_from_queue` deletes the first entry matching the URL
only when that entry is not running, leaves the queue unchanged when it
is running, and, when no entry matches (in particular on an empty
queue), subscripts one position past the end of the queue — an
IndexError — instead of returning normally. -/
theorem remove_from_queue_spec (url : String) (queue : List DownloadItem) :
    ((∀ st ∈ queue, st.url ≠ url) →
        remove_from_queue url queue = RemoveResult.indexError)
    ∧ (∀ (i : Nat) (hi : i < queue.length),
        (queue.get ⟨i, hi⟩).url = url →
        (∀ (j : Nat) (hj : j < queue.length), j < i → (queue.get ⟨j, hj⟩).url ≠ url) →
        remove_from_queue url queue
          = if (queue.get ⟨i, hi⟩).running then RemoveResult.ok queue
            else RemoveResult.ok (queue.eraseIdx i)) := by
  constructor
  · intro hall
    have hlen : queue.findIdx (fun status => status.url == url) = queue.length := by
      rw [List.findIdx_eq_length]
      intro x hx
      simp only [beq_eq_false_iff_ne]
      exact hall x hx
    rw [remove_from_queue]
    simp only [hlen]
    rw [dif_neg (by omega)]
  · intro i hi hmatch hfirst
    have hidx : queue.findIdx (fun status => status.url == url) = i := by
      rw [List.findIdx_eq hi]
      constructor
      · simpa using hmatch
      · intro j hji
        have hj : j < queue.length := by omega
        simpa using hfirst j hj hji
    rw [remove_from_queue]
    simp only [hidx]
    rw [dif_pos hi]

/-- Witness for C9: a queue whose only entry matches and is not
running is erased; the theorem applied at a concrete queue. -/
theorem remove_from_queue_spec_witness :
    remove_from_queue "a" [initial_status "a" false false false false]
      = RemoveResult.ok [] := by
  have h := (remove_from_queue_spec "a" [initial_status "a" false false false false]).2
    0 (by decide) (by decide) (fun j hj hji => by omega)
  rw [h]
  rfl

/-! ### Queue retirement under both locks (claim C7)

A small labelled transition system modelling one device worker
(`TivoDownload.run`, tivodownload.py lines 66-104; identical logic in
`ToGo.process_queue`, togo.py lines 1018-1036) together with the
enqueueing request handler (`ToGo.ToGo`, togo.py lines 1088-1092).
The worker tests the queue under the queue mutex; on observing it
empty it releases that mutex, acquires the registry mutex and then the
queue mutex, re-checks emptiness, and deletes the registry entry only
when the queue is still empty.  The enqueuer appends to the queue of a
registered device while holding both the registry and queue mutexes.
Steps that acquire, use and release a mutex without an externally
visible intermediate state are modelled atomically. -/

inductive LockOwner where
  | nobody
  | workerThread
  | clientThread
  deriving Repr, DecidableEq

inductive WorkerPhase where
  | checking      -- top of the while loop, before testing the queue
  | working       -- queue observed non-empty: download the head entry
  | retiring      -- queue observed empty, queue mutex released again
  | removing      -- registry and queue mutexes both held, about to re-check
  | stopped       -- the worker broke out of its loop
  deriving Repr, DecidableEq

structure EngineState where
  registryLock : LockOwner
  queueLock : LockOwner
  inRegistry : Bool
  queue : List DownloadItem
  phase : WorkerPhase
  deriving Repr, DecidableEq

/-- One interleaved step of the worker or of an enqueueing request
handler. -/
inductive EngineStep : EngineState → EngineState → Prop where
  | workerCheckNonempty (s : EngineState) :
      s.phase = WorkerPhase.checking → s.queueLock = LockOwner.nobody →
      s.queue ≠ [] →
      EngineStep s { s with phase := WorkerPhase.working }
  | workerCheckEmpty (s : EngineState) :
      s.phase = WorkerPhase.checking → s.queueLock = LockOwner.nobody →
      s.queue = [] →
      EngineStep s { s with phase := WorkerPhase.retiring }
  | workerPop (s : EngineState) :
      s.phase = WorkerPhase.working → s.queueLock = LockOwner.nobody →
      EngineStep s { s with queue := s.queue.tail, phase := WorkerPhase.checking }
  | workerAcquireBoth (s : EngineState) :
      s.phase = WorkerPhase.retiring → s.registryLock = LockOwner.nobody →
      s.queueLock = LockOwner.nobody →
      EngineStep s { s with registryLock := LockOwner.workerThread,
                            queueLock := LockOwner.workerThread,
                            phase := WorkerPhase.removing }
  | workerRecheckDelete (s : EngineState) :
      s.phase = WorkerPhase.removing → s.registryLock = LockOwner.workerThread →
      s.queueLock = LockOwner.workerThread → s.queue = [] →
      EngineStep s { s with inRegistry := false,
                            registryLock := LockOwner.nobody,
                            queueLock := LockOwner.nobody,
                            phase := WorkerPhase.stopped }
  | workerRecheckSkip (s : EngineState) :
      s.phase = WorkerPhase.removing → s.registryLock = LockOwner.workerThread →
      s.queueLock = LockOwner.workerThread → s.queue ≠ [] →
      EngineStep s { s with registryLock := LockOwner.nobody,
                            queueLock := LockOwner.nobody,
                            phase := WorkerPhase.stopped }
  | clientEnqueue (s : EngineState) (it : DownloadItem) :
      s.registryLock = LockOwner.nobody → s.queueLock = LockOwner.nobody →
      s.inRegistry = true →
      EngineStep s { s with queue := s.queue ++ [it] }

/-- C7: a step that removes the device queue from the registry happens
only at the re-check point, with both the registry mutex and the queue
mutex held by the worker, and with the queue sequence empty at that
moment; consequently no step of the system removes a queue that holds
at least one item. -/
theorem queue_removed_only_when_empty (s s2 : EngineState) (h : EngineStep s s2)
    (hrem : s.inRegistry = true ∧ s2.inRegistry = false) :
    s.queue = []
    ∧ s.registryLock = LockOwner.workerThread
    ∧ s.queueLock = LockOwner.workerThread
    ∧ s.phase = WorkerPhase.removing := by
  cases h with
  | workerCheckNonempty h1 h2 h3 => simp_all
  | workerCheckEmpty h1 h2 h3 => simp_all
  | workerPop h1 h2 => simp_all
  | workerAcquireBoth h1 h2 h3 => simp_all
  | workerRecheckDelete h1 h2 h3 h4 => exact ⟨h4, h2, h3, h1⟩
  | workerRecheckSkip h1 h2 h3 h4 => simp_all
  | clientEnqueue it h1 h2 h3 => simp_all

/-- Witness for C7: the removal step taken from a concrete state with
an empty queue. -/
theorem queue_removed_only_when_empty_witness :
    let s : EngineState :=
      { registryLock := LockOwner.workerThread, queueLock := LockOwner.workerThread,
        inRegistry := true, queue := [], phase := WorkerPhase.removing }
    let s2 : EngineState :=
      { registryLock := LockOwner.nobody, queueLock := LockOwner.nobody,
        inRegistry := false, queue := [], phase := WorkerPhase.stopped }
    s.queue = [] ∧ s.registryLock = LockOwner.workerThread
      ∧ s.queueLock = LockOwner.workerThread ∧ s.phase = WorkerPhase.removing :=
  queue_removed_only_when_empty _ _
    (EngineStep.workerRecheckDelete _ rfl rfl rfl rfl) ⟨rfl, rfl⟩

/-- The attempt record appended by `finish_attempt`. -/
def attempt_record (stA : DownloadItem) (da sl : Bool) (hdr el : Nat) : DownloadAttempt :=
  { status := if da then (if sl then "sync_errors_aborted" else "aborted")
              else (if sl then "sync_errors_saved" else "succeeded"),
    size := stA.size,
    error_packet_count := ts_error_count_of stA.ts_error_packets,
    error_packets :=
      if sl then
        stA.ts_error_packets.map (fun lost =>
          (lost.2, hdr + lost.1 * TS_PACKET_SIZE,
           hdr + (lost.1 + lost.2) * TS_PACKET_SIZE))
      else [] }

theorem finish_attempt_attempts (mode : TsErrorMode) (ts_max_retries : Nat)
    (stA : DownloadItem) (da rd sl : Bool) (hdr el : Nat) (outfile : String)
    (tail : List DownloadItem) (fs2 : List String) :
    (finish_attempt mode ts_max_retries stA da rd sl hdr el outfile tail fs2).item.download_attempts
      = stA.download_attempts ++ [attempt_record stA da sl hdr el] := by
  cases da <;> cases rd <;> cases sl <;>
    (simp only [finish_attempt, attempt_record]
     <;> (repeat' split)
     <;> simp)

set_option maxHeartbeats 2000000 in
theorem finish_attempt_tail (mode : TsErrorMode) (ts_max_retries : Nat)
    (stA : DownloadItem) (da rd sl : Bool) (hdr el : Nat) (outfile : String)
    (tail : List DownloadItem) (fs2 : List String) :
    (finish_attempt mode ts_max_retries stA da rd sl hdr el outfile tail fs2).tail
      = (if rd then
           make_retry_status
             (finish_attempt mode ts_max_retries stA da rd sl hdr el outfile tail fs2).item
             :: tail
         else tail) := by
  cases da <;> cases rd <;> cases sl <;>
    (simp only [finish_attempt]
     <;> (repeat' split)
     <;> simp)

set_option maxHeartbeats 2000000 in
theorem finish_attempt_finished (mode : TsErrorMode) (ts_max_retries : Nat)
    (stA : DownloadItem) (da rd sl : Bool) (hdr el : Nat) (outfile : String)
    (tail : List DownloadItem) (fs2 : List String) :
    (finish_attempt mode ts_max_retries stA da rd sl hdr el outfile tail fs2).item.finished
      = (if rd then stA.finished else true) := by
  cases da <;> cases rd <;> cases sl <;>
    (simp only [finish_attempt]
     <;> (repeat' split)
     <;> simp)

set_option maxHeartbeats 2000000 in
theorem finish_attempt_retry_field (mode : TsErrorMode) (ts_max_retries : Nat)
    (stA : DownloadItem) (da rd sl : Bool) (hdr el : Nat) (outfile : String)
    (tail : List DownloadItem) (fs2 : List String) :
    (finish_attempt mode ts_max_retries stA da rd sl hdr el outfile tail fs2).item.retry
      = stA.retry := by
  cases da <;> cases rd <;> cases sl <;>
    (simp only [finish_attempt]
     <;> (repeat' split)
     <;> simp)

/-- The item fields the body-copy loop never touches. -/
def itemFrame (st : DownloadItem) :=
  (st.retry, st.download_attempts, st.finished, st.best_file, st.best_error_count,
   st.best_attempt_index, st.queued, st.outfile, st.ts_format, st.decode, st.save,
   st.sortable, st.url)

theorem retry_if_iff (c X₁ X₂ : Prop) [Decidable c] (b : Bool) (h1 : X₁) (h2 : X₂) :
    ((if c then true else b) = true) ↔ (b = true ∨ (X₁ ∧ X₂ ∧ c)) := by
  split <;> simp_all

theorem retry_compose (A B C M R : Prop) :
    ((A ∨ (B ∧ M ∧ R)) ∨ (C ∧ M ∧ R)) ↔ (A ∨ ((B ∨ C) ∧ M ∧ R)) := by
  constructor
  · intro h
    rcases h with h | h
    · rcases h with h | h
      · exact Or.inl h
      · exact Or.inr ⟨Or.inl h.1, h.2⟩
    · exact Or.inr ⟨Or.inr h.1, h.2⟩
  · intro h
    rcases h with h | h
    · exact Or.inl (Or.inl h)
    · rcases h.1 with hb | hc
      · exact Or.inl (Or.inr ⟨hb, h.2.1, h.2.2⟩)
      · exact Or.inr ⟨hc, h.2.1, h.2.2⟩

theorem body_scan_spec (mode : TsErrorMode) (maxr : Nat) (s : BodyState)
    (br : Nat) (output : List Nat) :
    ∃ δ : List (Nat × Nat),
      (body_scan mode maxr s br output).1.ts_error_packets = s.st.ts_error_packets ++ δ
      ∧ itemFrame (body_scan mode maxr s br output).1 = itemFrame s.st
      ∧ ((body_scan mode maxr s br output).2.1 = true ↔
           (s.retry_download = true
             ∨ (δ ≠ [] ∧ mode ≠ TsErrorMode.ignore ∧ s.st.retry < maxr)))
      ∧ ((body_scan mode maxr s br output).2.2 = true →
           (δ ≠ [] ∧ mode ≠ TsErrorMode.ignore)) := by
  by_cases hts : s.st.ts_format = true
  case neg =>
    refine ⟨[], ?_, ?_, ?_, ?_⟩ <;> simp [body_scan, hts]
  case pos =>
  by_cases hemp : (packets_with_sync_loss output).isEmpty = true
  · refine ⟨[], ?_, ?_, ?_, ?_⟩ <;> simp [body_scan, hts, hemp]
  · have hnpl : (packets_with_sync_loss output).map
        (fun x => (x.1 + br / TS_PACKET_SIZE, x.2)) ≠ [] := by
      intro hmap
      rw [List.map_eq_nil_iff] at hmap
      rw [hmap] at hemp
      simp at hemp
    cases mode with
    | ignore =>
      refine ⟨(packets_with_sync_loss output).map (fun x => (x.1 + br / TS_PACKET_SIZE, x.2)),
        ?_, ?_, ?_, ?_⟩ <;> simp [body_scan, hts, hemp, itemFrame]
    | best =>
      by_cases hcond : s.st.retry > 0 ∧ s.st.best_file ≠ "" ∧ s.st.best_error_count ≤
          ts_error_count_of (s.st.ts_error_packets
            ++ (packets_with_sync_loss output).map (fun x => (x.1 + br / TS_PACKET_SIZE, x.2)))
      · refine ⟨(packets_with_sync_loss output).map (fun x => (x.1 + br / TS_PACKET_SIZE, x.2)),
          ?_, ?_, ?_, ?_⟩
        · simp [body_scan, hts, hemp, hcond]
        · simp [body_scan, hts, hemp, hcond, itemFrame]
        · simp only [body_scan, hts, hemp, if_true, Bool.false_eq_true, if_false, reduceIte,
            if_pos hcond]
          exact retry_if_iff (s.st.retry < maxr) _ _ s.retry_download hnpl (by simp)
        · intro _
          exact ⟨hnpl, by simp⟩
      · refine ⟨(packets_with_sync_loss output).map (fun x => (x.1 + br / TS_PACKET_SIZE, x.2)),
          ?_, ?_, ?_, ?_⟩
        · simp [body_scan, hts, hemp, hcond]
        · simp [body_scan, hts, hemp, hcond, itemFrame]
        · simp only [body_scan, hts, hemp, if_true, Bool.false_eq_true, if_false, reduceIte,
            if_neg hcond]
          exact retry_if_iff (s.st.retry < maxr) _ _ s.retry_download hnpl (by simp)
        · simp [body_scan, hts, hemp, hcond]
    | reject =>
      refine ⟨(packets_with_sync_loss output).map (fun x => (x.1 + br / TS_PACKET_SIZE, x.2)),
        ?_, ?_, ?_, ?_⟩
      · simp [body_scan, hts, hemp]
      · simp [body_scan, hts, hemp, itemFrame]
      · simp only [body_scan, hts, hemp, if_true, Bool.false_eq_true, if_false, reduceIte]
        exact retry_if_iff (s.st.retry < maxr) _ _ s.retry_download hnpl (by simp)
      · intro _
        exact ⟨hnpl, by simp⟩

theorem body_chunk_step_spec (mode : TsErrorMode) (maxr : Nat) (clock : UpdateClock)
    (j : Nat) (s : BodyState) (output : List Nat) :
    ∃ δ : List (Nat × Nat),
      (body_chunk_step mode maxr clock j s output).st.ts_error_packets
          = s.st.ts_error_packets ++ δ
      ∧ itemFrame (body_chunk_step mode maxr clock j s output).st = itemFrame s.st
      ∧ ((body_chunk_step mode maxr clock j s output).retry_download = true ↔
           (s.retry_download = true
             ∨ (δ ≠ [] ∧ mode ≠ TsErrorMode.ignore ∧ s.st.retry < maxr)))
      ∧ ((body_chunk_step mode maxr clock j s output).download_aborted = true →
           (δ ≠ [] ∧ mode ≠ TsErrorMode.ignore))
      ∧ (body_chunk_step mode maxr clock j s output).raised = s.raised := by
  obtain ⟨δ, h1, h2, h3, h4⟩ :=
    body_scan_spec mode maxr s (s.bytes_read + output.length) output
  rcases hscan : body_scan mode maxr s (s.bytes_read + output.length) output with
    ⟨st1, retry1, aborted1⟩
  rw [hscan] at h1 h2 h3 h4
  simp only at h1 h2 h3 h4
  have hstep : body_chunk_step mode maxr clock j s output
      = (if aborted1 then
           ({ st := st1, bytes_read := s.bytes_read + output.length,
              bytes_written := s.bytes_written,
              last_interval_read := s.last_interval_read + output.length,
              download_aborted := true, retry_download := retry1,
              raised := s.raised } : BodyState)
         else if clock.tick j then
           { st := { st1 with
                rate := (s.last_interval_read + output.length) * 8 / clock.elapsedAt j,
                size := st1.size + (s.last_interval_read + output.length) },
             bytes_read := s.bytes_read + output.length,
             bytes_written := s.bytes_written + output.length,
             last_interval_read := 0, download_aborted := false,
             retry_download := retry1, raised := s.raised }
         else
           { st := st1, bytes_read := s.bytes_read + output.length,
             bytes_written := s.bytes_written + output.length,
             last_interval_read := s.last_interval_read + output.length,
             download_aborted := false, retry_download := retry1,
             raised := s.raised }) := by
    rw [body_chunk_step, hscan]
  refine ⟨δ, ?_, ?_, ?_, ?_, ?_⟩ <;>
    rw [hstep] <;> cases aborted1 <;> by_cases htick : clock.tick j = true <;>
    simp_all [itemFrame]

set_option maxHeartbeats 4000000 in
theorem copy_body_loop_spec (mode : TsErrorMode) (maxr : Nat) (clock : UpdateClock)
    (exc_at : Option Nat) :
    ∀ (chunks : List (List Nat)) (j : Nat) (s : BodyState),
      s.download_aborted = false → s.raised = false →
      ∃ Δ : List (Nat × Nat),
        (copy_body_loop mode maxr clock exc_at chunks j s).st.ts_error_packets
            = s.st.ts_error_packets ++ Δ
        ∧ itemFrame (copy_body_loop mode maxr clock exc_at chunks j s).st = itemFrame s.st
        ∧ ((copy_body_loop mode maxr clock exc_at chunks j s).retry_download = true ↔
             (s.retry_download = true
               ∨ (Δ ≠ [] ∧ mode ≠ TsErrorMode.ignore ∧ s.st.retry < maxr)))
        ∧ ((copy_body_loop mode maxr clock exc_at chunks j s).download_aborted = true →
             (Δ ≠ [] ∧ mode ≠ TsErrorMode.ignore)) := by
  intro chunks
  induction chunks with
  | nil =>
    intro j s hna hnr
    refine ⟨[], by simp [copy_body_loop], by simp [copy_body_loop], ?_, ?_⟩
    · simp [copy_body_loop]
    · simp [copy_body_loop, hna]
  | cons output rest ih =>
    intro j s hna hnr
    by_cases hexc : exc_at = some j
    · refine ⟨[], ?_, ?_, ?_, ?_⟩ <;> simp [copy_body_loop, hexc, hna]
    · by_cases hempt : output.isEmpty = true
      · refine ⟨[], ?_, ?_, ?_, ?_⟩ <;> simp [copy_body_loop, hexc, hempt, hna]
      · obtain ⟨δ, hδ, hframe, hretry, habort, hraised⟩ :=
          body_chunk_step_spec mode maxr clock j s output
      -- wait-placeholder
        have hret : (body_chunk_step mode maxr clock j s output).st.retry = s.st.retry :=
          congrArg (fun x => x.1) hframe
        by_cases hab : (body_chunk_step mode maxr clock j s output).download_aborted = true
        · refine ⟨δ, ?_, ?_, ?_, ?_⟩ <;>
            simp only [copy_body_loop, hexc, hempt, if_neg hexc, if_false, hab, if_true] <;>
            simp_all
        · have hab2 : (body_chunk_step mode maxr clock j s output).download_aborted = false := by
            simpa using hab
          have hr2 : (body_chunk_step mode maxr clock j s output).raised = false := by
            rw [hraised, hnr]
          obtain ⟨Δ₂, hΔ₂, hframe₂, hretry₂, habort₂⟩ :=
            ih (j + 1) (body_chunk_step mode maxr clock j s output) hab2 hr2
          have hret₂ : s.st.retry < maxr ↔
              (body_chunk_step mode maxr clock j s output).st.retry < maxr := by
            rw [hret]
          have happ : (δ ++ Δ₂ ≠ []) ↔ (δ ≠ [] ∨ Δ₂ ≠ []) := by
            rw [Ne, List.append_eq_nil]
            exact not_and_or
          have hloop : copy_body_loop mode maxr clock exc_at (output :: rest) j s
              = copy_body_loop mode maxr clock exc_at rest (j + 1)
                  (body_chunk_step mode maxr clock j s output) := by
            simp only [copy_body_loop, if_neg hexc]
            rw [if_neg (by simpa using hempt), if_neg (by simpa using hab)]
          refine ⟨δ ++ Δ₂, ?_, ?_, ?_, ?_⟩
          · rw [hloop, hΔ₂, hδ, List.append_assoc]
          · rw [hloop, hframe₂, hframe]
          · rw [hloop, hretry₂, hretry, hret, happ]
            exact retry_compose _ _ _ _ _
          · intro habt
            rw [hloop] at habt
            obtain ⟨h1, h2⟩ := habort₂ habt
            exact ⟨by rw [happ]; exact Or.inr h1, h2⟩

theorem attempt_pre_spec (mode : TsErrorMode) (maxr : Nat) (inp : AttemptInput)
    (st1 : DownloadItem) (hclean : st1.ts_error_packets = []) :
    itemFrame (attempt_pre mode maxr inp st1).1 = itemFrame st1
    ∧ (((attempt_pre mode maxr inp st1).2.1 = true
          ∧ (attempt_pre mode maxr inp st1).2.2.2.1 = false
          ∧ ((attempt_pre mode maxr inp st1).2.2.1 = true ↔ st1.retry < maxr))
       ∨ ((attempt_pre mode maxr inp st1).2.1 = true
          ∧ (attempt_pre mode maxr inp st1).2.2.2.1 = true
          ∧ mode ≠ TsErrorMode.ignore
          ∧ ((attempt_pre mode maxr inp st1).2.2.1 = true ↔ st1.retry < maxr))
       ∨ ((attempt_pre mode maxr inp st1).2.1 = false
          ∧ (attempt_pre mode maxr inp st1).2.2.2.1 = true
          ∧ ((attempt_pre mode maxr inp st1).2.2.1 = true ↔
               (mode ≠ TsErrorMode.ignore ∧ st1.retry < maxr)))
       ∨ ((attempt_pre mode maxr inp st1).2.1 = false
          ∧ (attempt_pre mode maxr inp st1).2.2.2.1 = false
          ∧ (attempt_pre mode maxr inp st1).2.2.1 = false)) := by
  rcases hhdr : inp.header_result with _ | hdr
  · constructor
    · simp [attempt_pre, hhdr, itemFrame]
    · refine Or.inl ⟨?_, ?_, ?_⟩ <;> simp [attempt_pre, hhdr]
  · have hloop := copy_body_loop_spec mode maxr inp.clock inp.exc_at inp.chunks 0
      { st := { st1 with size := hdr.length }, bytes_read := 0, bytes_written := 0,
        last_interval_read := 0, download_aborted := false, retry_download := false,
        raised := false } rfl rfl
    obtain ⟨Δ, hΔ, hframe, hretry, habort⟩ := hloop
    have hbody : copy_tivo_body_to mode maxr inp.clock inp.exc_at
        { st1 with size := hdr.length } inp.chunks
        = copy_body_loop mode maxr inp.clock inp.exc_at inp.chunks 0
            { st := { st1 with size := hdr.length }, bytes_read := 0, bytes_written := 0,
              last_interval_read := 0, download_aborted := false, retry_download := false,
              raised := false } := rfl
    rw [← hbody] at hΔ hframe hretry habort
    set body := copy_tivo_body_to mode maxr inp.clock inp.exc_at
        { st1 with size := hdr.length } inp.chunks with hbodydef
    have htep : body.st.ts_error_packets = Δ := by
      rw [hΔ]
      show ({ st1 with size := hdr.length } : DownloadItem).ts_error_packets ++ Δ = Δ
      rw [show ({ st1 with size := hdr.length } : DownloadItem).ts_error_packets
            = st1.ts_error_packets from rfl, hclean, List.nil_append]
    have hretry2 : (body.retry_download = true ↔
        (Δ ≠ [] ∧ mode ≠ TsErrorMode.ignore ∧ st1.retry < maxr)) := by
      rw [hretry]
      simp
    have hframe2 : itemFrame body.st = itemFrame st1 := by
      rw [hframe]
      rfl
    have hret : body.st.retry = st1.retry := congrArg (fun x => x.1) hframe2
    by_cases hr : body.raised = true
    · constructor
      · have : itemFrame (attempt_pre mode maxr inp st1).1 = itemFrame body.st := by
          simp only [attempt_pre, hhdr, ← hbodydef, hr, if_pos rfl]
          rfl
        rw [this, hframe2]
      · refine Or.inl ⟨?_, ?_, ?_⟩ <;>
          simp only [attempt_pre, hhdr, ← hbodydef, hr, if_pos rfl]
        · rfl
        · rfl
        · show decide (body.st.retry < maxr) = true ↔ st1.retry < maxr
          rw [hret]
          simp
    · have hrF : body.raised = false := by simpa using hr
      have hsl : (attempt_pre mode maxr inp st1).2.2.2.1 = !Δ.isEmpty := by
        simp only [attempt_pre, hhdr, ← hbodydef, hrF, Bool.false_eq_true, if_false, htep]
      have hda : (attempt_pre mode maxr inp st1).2.1 = body.download_aborted := by
        simp only [attempt_pre, hhdr, ← hbodydef, hrF, Bool.false_eq_true, if_false]
      have hrd : (attempt_pre mode maxr inp st1).2.2.1 = body.retry_download := by
        simp only [attempt_pre, hhdr, ← hbodydef, hrF, Bool.false_eq_true, if_false]
      have hfr : itemFrame (attempt_pre mode maxr inp st1).1 = itemFrame body.st := by
        simp only [attempt_pre, hhdr, ← hbodydef, hrF, Bool.false_eq_true, if_false]
        split <;> rfl
      refine ⟨by rw [hfr, hframe2], ?_⟩
      by_cases hΔe : Δ = []
      · refine Or.inr (Or.inr (Or.inr ⟨?_, ?_, ?_⟩))
        · rw [hda]
          by_cases hab : body.download_aborted = true
          · exact absurd hΔe (habort hab).1
          · simpa using hab
        · rw [hsl, hΔe]
          rfl
        · rw [hrd]
          by_cases hrdT : body.retry_download = true
          · exact absurd hΔe (hretry2.mp hrdT).1
          · simpa using hrdT
      · have hslT : (attempt_pre mode maxr inp st1).2.2.2.1 = true := by
          rw [hsl]
          cases hc : Δ with
          | nil => exact absurd hc hΔe
          | cons a l => rfl
        by_cases hab : body.download_aborted = true
        · refine Or.inr (Or.inl ⟨by rw [hda, hab], hslT, (habort hab).2, ?_⟩)
          rw [hrd, hretry2]
          constructor
          · intro h
            exact h.2.2
          · intro h
            exact ⟨hΔe, (habort hab).2, h⟩
        · refine Or.inr (Or.inr (Or.inl ⟨by rw [hda]; simpa using hab, hslT, ?_⟩))
          rw [hrd, hretry2]
          constructor
          · intro h
            exact ⟨h.2.1, h.2.2⟩
          · intro h
            exact ⟨hΔe, h.1, h.2⟩

theorem itemFrame_retry_eq {a b : DownloadItem} (h : itemFrame a = itemFrame b) :
    a.retry = b.retry := congrArg (fun x => x.1) h

theorem itemFrame_attempts_eq {a b : DownloadItem} (h : itemFrame a = itemFrame b) :
    a.download_attempts = b.download_attempts := congrArg (fun x => x.2.1) h

theorem itemFrame_finished_eq {a b : DownloadItem} (h : itemFrame a = itemFrame b) :
    a.finished = b.finished := congrArg (fun x => x.2.2.1) h

theorem itemFrame_best_file_eq {a b : DownloadItem} (h : itemFrame a = itemFrame b) :
    a.best_file = b.best_file := congrArg (fun x => x.2.2.2.1) h

theorem itemFrame_best_count_eq {a b : DownloadItem} (h : itemFrame a = itemFrame b) :
    a.best_error_count = b.best_error_count := congrArg (fun x => x.2.2.2.2.1) h

theorem itemFrame_best_index_eq {a b : DownloadItem} (h : itemFrame a = itemFrame b) :
    a.best_attempt_index = b.best_attempt_index := congrArg (fun x => x.2.2.2.2.2.1) h

/-- C1 (amended): after every completed download attempt exactly one
attempt record is appended, and a fresh retry copy of the item (built
by `make_retry_status`: retry incremented, rate/size/error-ranges
cleared, queued=true) is inserted at the front of the remaining queue
sequence if and only if the item's retry counter is below the
configured maximum AND the attempt's outcome is `aborted`,
`sync_errors_aborted`, or — unlike the original claim —
`sync_errors_saved` under a non-ignore error mode (the source schedules
a retry for any sync loss when the mode is not `ignore`, even when the
attempt completed and was saved); in every other case the item is
marked finished and no retry entry is enqueued. -/
theorem run_attempt_retry_iff (mode : TsErrorMode) (ts_max_retries : Nat)
    (inp : AttemptInput) (outfile : String) (st0 : DownloadItem)
    (tail : List DownloadItem) (fs : List String)
    (hopen : inp.open_exc = none) (hclean : st0.ts_error_packets = []) :
    ∃ att : DownloadAttempt,
      (run_attempt mode ts_max_retries inp outfile st0 tail fs).item.download_attempts
          = st0.download_attempts ++ [att]
      ∧ (if st0.retry < ts_max_retries
            ∧ (att.status = "aborted" ∨ att.status = "sync_errors_aborted"
               ∨ (att.status = "sync_errors_saved" ∧ mode ≠ TsErrorMode.ignore))
         then (run_attempt mode ts_max_retries inp outfile st0 tail fs).tail
                = make_retry_status
                    (run_attempt mode ts_max_retries inp outfile st0 tail fs).item :: tail
              ∧ (run_attempt mode ts_max_retries inp outfile st0 tail fs).item.finished
                  = st0.finished
         else (run_attempt mode ts_max_retries inp outfile st0 tail fs).tail = tail
              ∧ (run_attempt mode ts_max_retries inp outfile st0 tail fs).item.finished
                  = true) := by
  obtain ⟨hfr, hcases⟩ := attempt_pre_spec mode ts_max_retries inp
    { st0 with running := true, queued := false, outfile := outfile } hclean
  rcases hpre : attempt_pre mode ts_max_retries inp
      { st0 with running := true, queued := false, outfile := outfile } with
    ⟨stA, da, rd, sl, hsz⟩
  rw [hpre] at hfr hcases
  simp only at hfr hcases
  obtain ⟨fs2, hrun⟩ : ∃ fs2, run_attempt mode ts_max_retries inp outfile st0 tail fs
      = finish_attempt mode ts_max_retries stA da rd sl hsz inp.attempt_elapsed outfile
          tail fs2 :=
    ⟨_, by simp only [run_attempt, hopen, hpre]; rfl⟩
  have hretA : stA.retry = st0.retry := by rw [itemFrame_retry_eq hfr]
  have hattA : stA.download_attempts = st0.download_attempts := by
    rw [itemFrame_attempts_eq hfr]
  have hfinA : stA.finished = st0.finished := by rw [itemFrame_finished_eq hfr]
  refine ⟨attempt_record stA da sl hsz inp.attempt_elapsed, ?_, ?_⟩
  · rw [hrun, finish_attempt_attempts, hattA]
  · have htail := finish_attempt_tail mode ts_max_retries stA da rd sl hsz
      inp.attempt_elapsed outfile tail fs2
    have hfin := finish_attempt_finished mode ts_max_retries stA da rd sl hsz
      inp.attempt_elapsed outfile tail fs2
    rcases hcases with ⟨hda, hsl, hiff⟩ | ⟨hda, hsl, hM, hiff⟩ | ⟨hda, hsl, hiff⟩
      | ⟨hda, hsl, hrd⟩
    · subst hda hsl
      have hstat : (attempt_record stA true false hsz inp.attempt_elapsed).status
          = "aborted" := rfl
      by_cases hrm : st0.retry < ts_max_retries
      · rw [if_pos ⟨hrm, Or.inl hstat⟩]
        have hrdT : rd = true := hiff.mpr hrm
        subst hrdT
        rw [hrun, hfin]
        refine ⟨?_, by simp [hfinA]⟩
        rw [htail]
        simp
      · rw [if_neg (fun hC => hrm hC.1)]
        have hrdF : rd = false := by
          cases rd with
          | false => rfl
          | true => exact absurd (hiff.mp rfl) hrm
        subst hrdF
        rw [hrun, hfin, htail]
        simp
    · subst hda hsl
      have hstat : (attempt_record stA true true hsz inp.attempt_elapsed).status
          = "sync_errors_aborted" := rfl
      by_cases hrm : st0.retry < ts_max_retries
      · rw [if_pos ⟨hrm, Or.inr (Or.inl hstat)⟩]
        have hrdT : rd = true := hiff.mpr hrm
        subst hrdT
        rw [hrun, hfin]
        refine ⟨?_, by simp [hfinA]⟩
        rw [htail]
        simp
      · rw [if_neg (fun hC => hrm hC.1)]
        have hrdF : rd = false := by
          cases rd with
          | false => rfl
          | true => exact absurd (hiff.mp rfl) hrm
        subst hrdF
        rw [hrun, hfin, htail]
        simp
    · subst hda hsl
      have hstat : (attempt_record stA false true hsz inp.attempt_elapsed).status
          = "sync_errors_saved" := rfl
      by_cases hC : st0.retry < ts_max_retries ∧ mode ≠ TsErrorMode.ignore
      · rw [if_pos ⟨hC.1, Or.inr (Or.inr ⟨hstat, hC.2⟩)⟩]
        have hrdT : rd = true := hiff.mpr ⟨hC.2, hC.1⟩
        subst hrdT
        rw [hrun, hfin]
        refine ⟨?_, by simp [hfinA]⟩
        rw [htail]
        simp
      · have hcond : ¬ (st0.retry < ts_max_retries
            ∧ ((attempt_record stA false true hsz inp.attempt_elapsed).status = "aborted"
               ∨ (attempt_record stA false true hsz inp.attempt_elapsed).status
                   = "sync_errors_aborted"
               ∨ ((attempt_record stA false true hsz inp.attempt_elapsed).status
                     = "sync_errors_saved" ∧ mode ≠ TsErrorMode.ignore))) := by
          rintro ⟨h1, h2 | h2 | ⟨h2, hM⟩⟩
          · rw [hstat] at h2
            exact absurd h2 (by decide)
          · rw [hstat] at h2
            exact absurd h2 (by decide)
          · exact hC ⟨h1, hM⟩
        rw [if_neg hcond]
        have hrdF : rd = false := by
          cases rd with
          | false => rfl
          | true => exact absurd ⟨(hiff.mp rfl).2, (hiff.mp rfl).1⟩ hC
        subst hrdF
        rw [hrun, hfin, htail]
        simp
    · subst hda hsl hrd
      have hstat : (attempt_record stA false false hsz inp.attempt_elapsed).status
          = "succeeded" := rfl
      have hcond : ¬ (st0.retry < ts_max_retries
          ∧ ((attempt_record stA false false hsz inp.attempt_elapsed).status = "aborted"
             ∨ (attempt_record stA false false hsz inp.attempt_elapsed).status
                 = "sync_errors_aborted"
             ∨ ((attempt_record stA false false hsz inp.attempt_elapsed).status
                   = "sync_errors_saved" ∧ mode ≠ TsErrorMode.ignore))) := by
        rintro ⟨h1, h2 | h2 | ⟨h2, hM⟩⟩ <;> rw [hstat] at h2 <;> exact absurd h2 (by decide)
      rw [if_neg hcond]
      rw [hrun, hfin, htail]
      simp

/-- Attempt events for the C1 counterexample: a parsed 16-byte header
followed by one 188-byte body chunk whose only packet is corrupted; no
exception anywhere. -/
def c1Input : AttemptInput :=
  { open_exc := none, header_result := some (List.replicate 16 0),
    chunks := [List.replicate 188 0], exc_at := none,
    clock := ⟨fun _ => false, fun _ => 1⟩, attempt_elapsed := 1 }

def c1Run : AttemptResult :=
  run_attempt TsErrorMode.best 1 c1Input "out.tivo"
    (initial_status "u" false false true false) [] []

set_option maxRecDepth 8192 in
/-- C1 counterexample: under error mode `best` with one retry allowed,
an attempt that completes with sync errors is classified
`sync_errors_saved`, yet the item is NOT marked finished and a retry
entry IS inserted at the front of the remaining queue — refuting the
claim that a completed attempt whose sync errors were saved is marked
finished with no retry enqueued. -/
theorem run_attempt_saved_retry_counterexample :
    c1Run.item.download_attempts.map (fun a => a.status) = ["sync_errors_saved"]
    ∧ c1Run.item.finished = false
    ∧ c1Run.tail = [make_retry_status c1Run.item] := by
  refine ⟨?_, ?_, ?_⟩ <;> rfl

/-- Witness for C1 (amended) at the concrete scenario of the
counterexample. -/
theorem run_attempt_retry_iff_witness :
    (c1Input.open_exc = none
      ∧ (initial_status "u" false false true false).ts_error_packets = [])
    ∧ (∃ att : DownloadAttempt,
        (run_attempt TsErrorMode.best 1 c1Input "out.tivo"
            (initial_status "u" false false true false) [] []).item.download_attempts
            = (initial_status "u" false false true false).download_attempts ++ [att]
        ∧ (if (initial_status "u" false false true false).retry < 1
              ∧ (att.status = "aborted" ∨ att.status = "sync_errors_aborted"
                 ∨ (att.status = "sync_errors_saved" ∧ TsErrorMode.best ≠ TsErrorMode.ignore))
           then (run_attempt TsErrorMode.best 1 c1Input "out.tivo"
                    (initial_status "u" false false true false) [] []).tail
                  = make_retry_status
                      (run_attempt TsErrorMode.best 1 c1Input "out.tivo"
                        (initial_status "u" false false true false) [] []).item :: []
                ∧ (run_attempt TsErrorMode.best 1 c1Input "out.tivo"
                      (initial_status "u" false false true false) [] []).item.finished
                    = (initial_status "u" false false true false).finished
           else (run_attempt TsErrorMode.best 1 c1Input "out.tivo"
                    (initial_status "u" false false true false) [] []).tail = []
                ∧ (run_attempt TsErrorMode.best 1 c1Input "out.tivo"
                      (initial_status "u" false false true false) [] []).item.finished
                    = true)) :=
  ⟨⟨rfl, rfl⟩,
   run_attempt_retry_iff TsErrorMode.best 1 c1Input "out.tivo"
     (initial_status "u" false false true false) [] [] rfl rfl⟩

set_option maxHeartbeats 2000000 in
theorem finish_attempt_error (mode : TsErrorMode) (ts_max_retries : Nat)
    (stA : DownloadItem) (da rd sl : Bool) (hdr el : Nat) (outfile : String)
    (tail : List DownloadItem) (fs2 : List String) :
    (finish_attempt mode ts_max_retries stA da rd sl hdr el outfile tail fs2).item.error
      = stA.error := by
  cases da <;> cases rd <;> cases sl <;>
    (simp only [finish_attempt]
     <;> (repeat' split)
     <;> simp)

/-- Byte stream for the C4 counterexample: 20 bytes declaring a
30-byte header. -/
def c4Data : List Nat :=
  [0, 0, 0, 0, 0, 0, 0, 0, 0, 0, 0, 0, 0, 30, 0, 0, 1, 2, 3, 4]

/-- C4 counterexample: a stream that ends before the declared header
body is complete makes the parser return a SHORT BUFFER normally — no
distinguished TruncatedHeader error (nor any error at all) is
signalled, refuting the claim. -/
theorem get_tivo_header_no_truncation_error_counterexample :
    declaredHeaderLength c4Data = 30
    ∧ c4Data.length = 20
    ∧ get_tivo_header c4Data = .ok (c4Data, 20) := by
  refine ⟨by decide, by decide, ?_⟩
  rfl

/-- C4 (amended): the source has no distinguished TruncatedHeader
error.  (1) A stream shorter than the 14 bytes needed by the prologue
unpack makes `struct.unpack_from` raise its generic struct error;
(2) a stream that ends after at least 14 bytes but before the declared
L-byte header is complete makes the parser return a short buffer of
length min(L, available) with no error signalled; (3) when the header
read raises, the caller's blanket exception handler aborts the
attempt, recording an attempt with status `aborted` and the generic
download-error message. -/
theorem get_tivo_header_truncation_behavior :
    (∀ data : List Nat, data.length < 14 →
        get_tivo_header data = .error StructUnpackError.insufficientBuffer)
    ∧ (∀ data : List Nat, 14 ≤ data.length → 16 ≤ declaredHeaderLength data →
        ∃ (buf : List Nat) (pos : Nat), get_tivo_header data = .ok (buf, pos)
          ∧ buf.length = min (declaredHeaderLength data) data.length)
    ∧ (∀ (mode : TsErrorMode) (maxr : Nat) (inp : AttemptInput) (outfile : String)
        (st0 : DownloadItem) (tail : List DownloadItem) (fs : List String),
        inp.open_exc = none → inp.header_result = none →
        ∃ att : DownloadAttempt,
          (run_attempt mode maxr inp outfile st0 tail fs).item.download_attempts
              = st0.download_attempts ++ [att]
          ∧ att.status = "aborted"
          ∧ (run_attempt mode maxr inp outfile st0 tail fs).item.error
              = "Error downloading file: struct.error") := by
  refine ⟨?_, ?_, ?_⟩
  · intro data h
    have hu : unpack_from_u32be (stream_read data 0 16).1 10 = none := by
      rw [unpack_from_u32be, if_neg]
      intro hle
      have : ((stream_read data 0 16).1).length = min 16 data.length := by
        simp [stream_read, List.length_take]
      omega
    rw [get_tivo_header]
    simp only [hu]
  · intro data h14 hL
    have hu := unpack_prologue data h14
    rw [get_tivo_header]
    simp only [hu]
    refine ⟨_, _, rfl, ?_⟩
    have hneg : ¬ ((declaredHeaderLength data : Int) - 16 < 0) := by omega
    have htn : ((declaredHeaderLength data : Int) - 16).toNat
        = declaredHeaderLength data - 16 := by omega
    have h16 : ¬ ((16 : Int) < 0) := by norm_num
    simp only [stream_read, if_neg hneg, htn, if_neg h16, Int.toNat_ofNat,
      List.drop_zero, List.length_append, List.length_take, List.length_drop]
    omega
  · intro mode maxr inp outfile st0 tail fs hopen hh
    obtain ⟨fs2, hrun⟩ : ∃ fs2, run_attempt mode maxr inp outfile st0 tail fs
        = finish_attempt mode maxr
            { st0 with running := false, queued := false, outfile := outfile,
                       error := "Error downloading file: struct.error" }
            true (decide (st0.retry < maxr)) false 0 inp.attempt_elapsed outfile tail fs2 :=
      ⟨_, by simp only [run_attempt, hopen, attempt_pre, hh]; rfl⟩
    refine ⟨attempt_record
        { st0 with running := false, queued := false, outfile := outfile,
                   error := "Error downloading file: struct.error" }
        true false 0 inp.attempt_elapsed, ?_, rfl, ?_⟩
    · rw [hrun, finish_attempt_attempts]
    · rw [hrun, finish_attempt_error]

/-- Attempt events with a header-read failure, for the C4 witness. -/
def c4Input : AttemptInput :=
  { open_exc := none, header_result := none, chunks := [], exc_at := none,
    clock := ⟨fun _ => false, fun _ => 1⟩, attempt_elapsed := 1 }

/-- Witness for C4 at concrete inputs: a 1-byte stream (prologue
unpack fails), the 20-byte stream declaring 30 bytes (short buffer
returned), and an attempt whose header read raised (caller aborts). -/
theorem get_tivo_header_truncation_behavior_witness :
    (([0x47] : List Nat).length < 14
      ∧ get_tivo_header [0x47] = .error StructUnpackError.insufficientBuffer)
    ∧ ((14 ≤ c4Data.length ∧ 16 ≤ declaredHeaderLength c4Data)
      ∧ ∃ (buf : List Nat) (pos : Nat), get_tivo_header c4Data = .ok (buf, pos)
          ∧ buf.length = min (declaredHeaderLength c4Data) c4Data.length)
    ∧ ((c4Input.open_exc = none ∧ c4Input.header_result = none)
      ∧ ∃ att : DownloadAttempt,
          (run_attempt TsErrorMode.reject 1 c4Input "o.tivo"
              (initial_status "u" false false true false) [] []).item.download_attempts
              = (initial_status "u" false false true false).download_attempts ++ [att]
          ∧ att.status = "aborted"
          ∧ (run_attempt TsErrorMode.reject 1 c4Input "o.tivo"
                (initial_status "u" false false true false) [] []).item.error
              = "Error downloading file: struct.error") := by
  refine ⟨⟨by decide, ?_⟩, ⟨⟨by decide, by decide⟩, ?_⟩, ⟨⟨rfl, rfl⟩, ?_⟩⟩
  · exact get_tivo_header_truncation_behavior.1 [0x47] (by decide)
  · exact get_tivo_header_truncation_behavior.2.1 c4Data (by decide) (by decide)
  · exact get_tivo_header_truncation_behavior.2.2 TsErrorMode.reject 1 c4Input "o.tivo"
      (initial_status "u" false false true false) [] [] rfl rfl

/-! ### Retry budget under error mode reject (claim C5) -/

/-- Whether the body stream contains a chunk with sync loss before end
of stream; under mode `reject` the body loop aborts exactly when this
holds. -/
def has_lossy_chunk : List (List Nat) → Bool
  | [] => false
  | c :: rest =>
      if c.isEmpty then false
      else if !(packets_with_sync_loss c).isEmpty then true
      else has_lossy_chunk rest

theorem copy_body_loop_no_raise (mode : TsErrorMode) (maxr : Nat) (clock : UpdateClock) :
    ∀ (chunks : List (List Nat)) (j : Nat) (s : BodyState),
      (copy_body_loop mode maxr clock none chunks j s).raised = s.raised := by
  intro chunks
  induction chunks with
  | nil => intro j s; rfl
  | cons output rest ih =>
    intro j s
    obtain ⟨δ, h1, h2, h3, h4, h5⟩ := body_chunk_step_spec mode maxr clock j s output
    by_cases hempt : output.isEmpty = true
    · simp [copy_body_loop, hempt]
    · by_cases hab : (body_chunk_step mode maxr clock j s output).download_aborted = true
      · simp only [copy_body_loop, hempt]
        rw [if_neg (by simp), if_neg (by simpa using hempt), if_pos hab]
        exact h5
      · simp only [copy_body_loop, hempt]
        rw [if_neg (by simp), if_neg (by simpa using hempt), if_neg hab]
        rw [ih, h5]

theorem itemFrame_ts_format_eq {a b : DownloadItem} (h : itemFrame a = itemFrame b) :
    a.ts_format = b.ts_format := congrArg (fun x => x.2.2.2.2.2.2.2.2.1) h

theorem body_scan_reject_aborted (maxr : Nat) (s : BodyState) (br : Nat)
    (output : List Nat) (hts : s.st.ts_format = true) :
    (body_scan TsErrorMode.reject maxr s br output).2.2
      = !(packets_with_sync_loss output).isEmpty := by
  by_cases hemp : (packets_with_sync_loss output).isEmpty = true
  · simp [body_scan, hts, hemp]
  · have hemp2 : (packets_with_sync_loss output).isEmpty = false := by
      simpa using hemp
    simp [body_scan, hts, hemp2]

theorem body_chunk_step_aborted_eq_scan (mode : TsErrorMode) (maxr : Nat)
    (clock : UpdateClock) (j : Nat) (s : BodyState) (output : List Nat) :
    (body_chunk_step mode maxr clock j s output).download_aborted
      = (body_scan mode maxr s (s.bytes_read + output.length) output).2.2 := by
  rcases hscan : body_scan mode maxr s (s.bytes_read + output.length) output with
    ⟨st1, retry1, aborted1⟩
  rw [body_chunk_step, hscan]
  cases aborted1 <;> by_cases htick : clock.tick j = true <;> simp [htick]

theorem copy_body_loop_reject_aborts (maxr : Nat) (clock : UpdateClock) :
    ∀ (chunks : List (List Nat)) (j : Nat) (s : BodyState),
      s.download_aborted = false → s.st.ts_format = true →
      (copy_body_loop TsErrorMode.reject maxr clock none chunks j s).download_aborted
        = has_lossy_chunk chunks := by
  intro chunks
  induction chunks with
  | nil =>
    intro j s hna hts
    simpa [copy_body_loop, has_lossy_chunk] using hna
  | cons output rest ih =>
    intro j s hna hts
    by_cases hempt : output.isEmpty = true
    · simp [copy_body_loop, hempt, has_lossy_chunk, hna]
    · have hstep := body_chunk_step_aborted_eq_scan TsErrorMode.reject maxr clock j s output
      rw [body_scan_reject_aborted maxr s (s.bytes_read + output.length) output hts] at hstep
      by_cases hloss : (packets_with_sync_loss output).isEmpty = true
      · have habF : (body_chunk_step TsErrorMode.reject maxr clock j s output).download_aborted
            = false := by rw [hstep, hloss]; rfl
        obtain ⟨δ, h1, h2, h3, h4, h5⟩ :=
          body_chunk_step_spec TsErrorMode.reject maxr clock j s output
        have hts2 : (body_chunk_step TsErrorMode.reject maxr clock j s output).st.ts_format
            = true := by rw [itemFrame_ts_format_eq h2, hts]
        simp only [copy_body_loop]
        rw [if_neg (by simp), if_neg (by simpa using hempt), if_neg (by rw [habF]; simp)]
        rw [ih (j + 1) _ habF hts2]
        simp [has_lossy_chunk, hempt, hloss]
      · have hlossF : (packets_with_sync_loss output).isEmpty = false := by
          simpa using hloss
        have habT : (body_chunk_step TsErrorMode.reject maxr clock j s output).download_aborted
            = true := by rw [hstep, hlossF]; rfl
        simp only [copy_body_loop]
        rw [if_neg (by simp), if_neg (by simpa using hempt), if_pos habT]
        rw [habT]
        simp [has_lossy_chunk, hempt, hlossF]

theorem attempt_pre_reject (maxr : Nat) (inp : AttemptInput) (st1 : DownloadItem)
    (hdr : List Nat) (hhdr : inp.header_result = some hdr)
    (hexc : inp.exc_at = none) (hts : st1.ts_format = true)
    (hclean : st1.ts_error_packets = [])
    (hlossy : has_lossy_chunk inp.chunks = true) :
    itemFrame (attempt_pre TsErrorMode.reject maxr inp st1).1 = itemFrame st1
    ∧ (attempt_pre TsErrorMode.reject maxr inp st1).2.1 = true
    ∧ (attempt_pre TsErrorMode.reject maxr inp st1).2.2.2.1 = true
    ∧ ((attempt_pre TsErrorMode.reject maxr inp st1).2.2.1 = true ↔ st1.retry < maxr) := by
  obtain ⟨Δ, hΔ, hframe, hretry, habort⟩ :=
    copy_body_loop_spec TsErrorMode.reject maxr inp.clock inp.exc_at inp.chunks 0
      { st := { st1 with size := hdr.length }, bytes_read := 0, bytes_written := 0,
        last_interval_read := 0, download_aborted := false, retry_download := false,
        raised := false } rfl rfl
  have hda := copy_body_loop_reject_aborts maxr inp.clock inp.chunks 0
    { st := { st1 with size := hdr.length }, bytes_read := 0, bytes_written := 0,
      last_interval_read := 0, download_aborted := false, retry_download := false,
      raised := false } rfl hts
  have hnr := copy_body_loop_no_raise TsErrorMode.reject maxr inp.clock inp.chunks 0
    { st := { st1 with size := hdr.length }, bytes_read := 0, bytes_written := 0,
      last_interval_read := 0, download_aborted := false, retry_download := false,
      raised := false }
  rw [hexc] at hΔ hframe hretry habort
  rw [hlossy] at hda
  have hbody : copy_tivo_body_to TsErrorMode.reject maxr inp.clock none
      { st1 with size := hdr.length } inp.chunks
      = copy_body_loop TsErrorMode.reject maxr inp.clock none inp.chunks 0
          { st := { st1 with size := hdr.length }, bytes_read := 0, bytes_written := 0,
            last_interval_read := 0, download_aborted := false, retry_download := false,
            raised := false } := rfl
  rw [← hbody] at hΔ hframe hretry habort hda hnr
  set body := copy_tivo_body_to TsErrorMode.reject maxr inp.clock none
      { st1 with size := hdr.length } inp.chunks with hbodydef
  have hrF : body.raised = false := hnr
  have htep : body.st.ts_error_packets = Δ := by
    rw [hΔ]
    show ({ st1 with size := hdr.length } : DownloadItem).ts_error_packets ++ Δ = Δ
    rw [show ({ st1 with size := hdr.length } : DownloadItem).ts_error_packets
          = st1.ts_error_packets from rfl, hclean, List.nil_append]
  have hΔne : Δ ≠ [] := (habort hda).1
  have hframe2 : itemFrame body.st = itemFrame st1 := by
    rw [hframe]
    rfl
  have hpre_eq : attempt_pre TsErrorMode.reject maxr inp st1
      = ((if body.st.running ∧ body.st.ts_error_packets.isEmpty then
            { body.st with error := "" }
          else body.st),
         body.download_aborted, body.retry_download,
         !body.st.ts_error_packets.isEmpty, hdr.length) := by
    simp only [attempt_pre, hhdr, hexc, ← hbodydef, hrF, Bool.false_eq_true, if_false]
  rw [hpre_eq]
  simp only
  refine ⟨?_, hda, ?_, ?_⟩
  · have : itemFrame (if body.st.running ∧ body.st.ts_error_packets.isEmpty then
        { body.st with error := "" } else body.st) = itemFrame body.st := by
      split <;> rfl
    rw [this, hframe2]
  · rw [htep]
    cases hc : Δ with
    | nil => exact absurd hc hΔne
    | cons a l => rfl
  · rw [hretry]
    constructor
    · intro h
      rcases h with h | h
      · exact absurd h (by simp)
      · exact h.2.2
    · intro h
      exact Or.inr ⟨hΔne, by simp, h⟩

set_option maxHeartbeats 2000000 in
theorem finish_attempt_aborted_best (mode : TsErrorMode) (ts_max_retries : Nat)
    (stA : DownloadItem) (rd sl : Bool) (hdr el : Nat) (outfile : String)
    (tail : List DownloadItem) (fs2 : List String) :
    (finish_attempt mode ts_max_retries stA true rd sl hdr el outfile tail fs2).item.best_file
        = stA.best_file
    ∧ (finish_attempt mode ts_max_retries stA true rd sl hdr el outfile
          tail fs2).item.best_error_count = stA.best_error_count
    ∧ (finish_attempt mode ts_max_retries stA true rd sl hdr el outfile
          tail fs2).item.best_attempt_index = stA.best_attempt_index := by
  cases rd <;> cases sl <;> (simp only [finish_attempt] <;> (repeat' split) <;> simp_all)

set_option maxHeartbeats 2000000 in
theorem finish_attempt_ts_format (mode : TsErrorMode) (ts_max_retries : Nat)
    (stA : DownloadItem) (da rd sl : Bool) (hdr el : Nat) (outfile : String)
    (tail : List DownloadItem) (fs2 : List String) :
    (finish_attempt mode ts_max_retries stA da rd sl hdr el outfile tail fs2).item.ts_format
      = stA.ts_format := by
  cases da <;> cases rd <;> cases sl <;>
    (simp only [finish_attempt] <;> (repeat' split) <;> simp_all)

theorem run_attempt_reject_lossy (maxr : Nat) (inp : AttemptInput) (outfile : String)
    (st0 : DownloadItem) (tail : List DownloadItem) (fs : List String)
    (hopen : inp.open_exc = none) (hdr : List Nat) (hhdr : inp.header_result = some hdr)
    (hexc : inp.exc_at = none) (hts : st0.ts_format = true)
    (hclean : st0.ts_error_packets = [])
    (hlossy : has_lossy_chunk inp.chunks = true) :
    ∃ att : DownloadAttempt,
      (run_attempt TsErrorMode.reject maxr inp outfile st0 tail fs).item.download_attempts
          = st0.download_attempts ++ [att]
      ∧ att.status = "sync_errors_aborted"
      ∧ (run_attempt TsErrorMode.reject maxr inp outfile st0 tail fs).item.finished
          = (if st0.retry < maxr then st0.finished else true)
      ∧ (run_attempt TsErrorMode.reject maxr inp outfile st0 tail fs).tail
          = (if st0.retry < maxr then
               make_retry_status
                 (run_attempt TsErrorMode.reject maxr inp outfile st0 tail fs).item :: tail
             else tail)
      ∧ (run_attempt TsErrorMode.reject maxr inp outfile st0 tail fs).item.best_file
          = st0.best_file
      ∧ (run_attempt TsErrorMode.reject maxr inp outfile st0 tail fs).item.best_error_count
          = st0.best_error_count
      ∧ (run_attempt TsErrorMode.reject maxr inp outfile st0 tail fs).item.best_attempt_index
          = st0.best_attempt_index
      ∧ (run_attempt TsErrorMode.reject maxr inp outfile st0 tail fs).item.retry = st0.retry
      ∧ (run_attempt TsErrorMode.reject maxr inp outfile st0 tail fs).item.ts_format
          = st0.ts_format := by
  obtain ⟨hfr, hda, hsl, hiff⟩ := attempt_pre_reject maxr inp
    { st0 with running := true, queued := false, outfile := outfile } hdr hhdr hexc hts hclean
    hlossy
  rcases hpre : attempt_pre TsErrorMode.reject maxr inp
      { st0 with running := true, queued := false, outfile := outfile } with
    ⟨stA, da, rd, sl, hsz⟩
  rw [hpre] at hfr hda hsl hiff
  simp only at hfr hda hsl hiff
  subst hda hsl
  obtain ⟨fs2, hrun⟩ : ∃ fs2, run_attempt TsErrorMode.reject maxr inp outfile st0 tail fs
      = finish_attempt TsErrorMode.reject maxr stA true rd true hsz inp.attempt_elapsed
          outfile tail fs2 :=
    ⟨_, by simp only [run_attempt, hopen, hpre]; rfl⟩
  have hretA : stA.retry = st0.retry := by rw [itemFrame_retry_eq hfr]
  have hattA : stA.download_attempts = st0.download_attempts := by
    rw [itemFrame_attempts_eq hfr]
  have hfinA : stA.finished = st0.finished := by rw [itemFrame_finished_eq hfr]
  have hbfA : stA.best_file = st0.best_file := by rw [itemFrame_best_file_eq hfr]
  have hbcA : stA.best_error_count = st0.best_error_count := by
    rw [itemFrame_best_count_eq hfr]
  have hbiA : stA.best_attempt_index = st0.best_attempt_index := by
    rw [itemFrame_best_index_eq hfr]
  have htfA : stA.ts_format = st0.ts_format := by rw [itemFrame_ts_format_eq hfr]
  have hbest := finish_attempt_aborted_best TsErrorMode.reject maxr stA rd true hsz
    inp.attempt_elapsed outfile tail fs2
  refine ⟨attempt_record stA true true hsz inp.attempt_elapsed, ?_, rfl, ?_, ?_, ?_, ?_, ?_, ?_, ?_⟩
  · rw [hrun, finish_attempt_attempts, hattA]
  · rw [hrun, finish_attempt_finished]
    by_cases hrm : st0.retry < maxr
    · rw [if_pos hrm, if_pos (hiff.mpr hrm), hfinA]
    · have hrdF : rd = false := by
        cases rd with
        | false => rfl
        | true => exact absurd (hiff.mp rfl) hrm
      rw [if_neg hrm, hrdF]
      simp
  · rw [hrun, finish_attempt_tail]
    by_cases hrm : st0.retry < maxr
    · rw [if_pos hrm, if_pos (hiff.mpr hrm)]
    · have hrdF : rd = false := by
        cases rd with
        | false => rfl
        | true => exact absurd (hiff.mp rfl) hrm
      rw [if_neg hrm, hrdF]
      simp
  · rw [hrun, hbest.1, hbfA]
  · rw [hrun, hbest.2.1, hbcA]
  · rw [hrun, hbest.2.2, hbiA]
  · rw [hrun, finish_attempt_retry_field, hretA]
  · rw [hrun, finish_attempt_ts_format, htfA]

/-- The worker loop (`TivoDownload.run`) specialised to a queue that
holds a single item: each iteration downloads the head entry and pops
it; the retry entry inserted at the front of the remaining queue (if
any) becomes the next head.  `inputs i` and `outfiles i` are the
attempt events and the resolved output path of the attempt whose retry
counter is `i`; `fuel` bounds the number of iterations (the worker
itself loops until the queue empties). -/
def run_item : Nat → TsErrorMode → Nat → (Nat → AttemptInput) → (Nat → String) →
    DownloadItem → List String → Option (DownloadItem × List String)
  | 0, _, _, _, _, _, _ => none
  | fuel + 1, mode, maxr, inputs, outfiles, st, fs =>
      match run_attempt mode maxr (inputs st.retry) (outfiles st.retry) st [] fs with
      | ⟨item, [], fsOut⟩ => some (item, fsOut)
      | ⟨_, retry_entry :: _, fsOut⟩ =>
          run_item fuel mode maxr inputs outfiles retry_entry fsOut

theorem run_item_reject (maxr : Nat) (inputs : Nat → AttemptInput)
    (outfiles : Nat → String) :
    ∀ (fuel : Nat) (st : DownloadItem) (fs : List String),
      (∀ i, (inputs i).open_exc = none) →
      (∀ i, ∃ h, (inputs i).header_result = some h) →
      (∀ i, (inputs i).exc_at = none) →
      (∀ i, has_lossy_chunk (inputs i).chunks = true) →
      st.ts_format = true → st.ts_error_packets = [] →
      st.retry ≤ maxr → maxr + 1 ≤ fuel + st.retry →
      ∃ (out : DownloadItem) (fsOut : List String),
        run_item fuel TsErrorMode.reject maxr inputs outfiles st fs = some (out, fsOut)
        ∧ out.finished = true
        ∧ out.download_attempts.length
            = st.download_attempts.length + (maxr + 1 - st.retry)
        ∧ out.best_file = st.best_file
        ∧ out.best_error_count = st.best_error_count
        ∧ out.best_attempt_index = st.best_attempt_index
        ∧ (∀ a ∈ out.download_attempts,
             a ∈ st.download_attempts ∨ a.status = "sync_errors_aborted") := by
  intro fuel
  induction fuel with
  | zero =>
    intro st fs _ _ _ _ _ _ hle hfuel
    omega
  | succ fuel ih =>
    intro st fs hopen hhdr hexc hlossy hts hclean hle hfuel
    obtain ⟨hdr, hhdr0⟩ := hhdr st.retry
    obtain ⟨att, hatt, hstat, hfin, htail, hbf, hbc, hbi, hret, htf⟩ :=
      run_attempt_reject_lossy maxr (inputs st.retry) (outfiles st.retry) st [] fs
        (hopen st.retry) hdr hhdr0 (hexc st.retry) hts hclean (hlossy st.retry)
    rcases hres : run_attempt TsErrorMode.reject maxr (inputs st.retry)
        (outfiles st.retry) st [] fs with ⟨item, rtail, fsOut⟩
    rw [hres] at hatt hfin htail hbf hbc hbi hret htf
    simp only at hatt hfin htail hbf hbc hbi hret htf
    by_cases hrm : st.retry < maxr
    · rw [if_pos hrm] at htail hfin
      have hrun : run_item (fuel + 1) TsErrorMode.reject maxr inputs outfiles st fs
          = run_item fuel TsErrorMode.reject maxr inputs outfiles
              (make_retry_status item) fsOut := by
        rw [run_item, hres, htail]
      obtain ⟨out, fsOut2, hrec, hfin2, hlen2, hbf2, hbc2, hbi2, hmem2⟩ :=
        ih (make_retry_status item) fsOut hopen hhdr hexc hlossy
          (by rw [show (make_retry_status item).ts_format = item.ts_format from rfl, htf, hts])
          rfl
          (by rw [show (make_retry_status item).retry = item.retry + 1 from rfl, hret]; omega)
          (by rw [show (make_retry_status item).retry = item.retry + 1 from rfl, hret]; omega)
      refine ⟨out, fsOut2, by rw [hrun, hrec], hfin2, ?_, ?_, ?_, ?_, ?_⟩
      · rw [hlen2]
        rw [show (make_retry_status item).download_attempts = item.download_attempts from rfl]
        rw [show (make_retry_status item).retry = item.retry + 1 from rfl]
        rw [hatt, hret, List.length_append]
        simp only [List.length_cons, List.length_nil]
        omega
      · rw [hbf2, show (make_retry_status item).best_file = item.best_file from rfl, hbf]
      · rw [hbc2,
          show (make_retry_status item).best_error_count = item.best_error_count from rfl, hbc]
      · rw [hbi2,
          show (make_retry_status item).best_attempt_index = item.best_attempt_index from rfl,
          hbi]
      · intro a ha
        rcases hmem2 a ha with hmem | hmem
        · rw [show (make_retry_status item).download_attempts = item.download_attempts
              from rfl, hatt] at hmem
          rcases List.mem_append.mp hmem with hmem | hmem
          · exact Or.inl hmem
          · right
            rw [List.mem_singleton.mp hmem]
            exact hstat
        · exact Or.inr hmem
    · have heq : st.retry = maxr := by omega
      rw [if_neg hrm] at htail hfin
      have hrun : run_item (fuel + 1) TsErrorMode.reject maxr inputs outfiles st fs
          = some (item, fsOut) := by
        rw [run_item, hres, htail]
      refine ⟨item, fsOut, hrun, hfin, ?_, hbf, hbc, hbi, ?_⟩
      · rw [hatt, List.length_append]
        simp only [List.length_cons, List.length_nil]
        omega
      · intro a ha
        rw [hatt] at ha
        rcases List.mem_append.mp ha with hmem | hmem
        · exact Or.inl hmem
        · right
          rw [List.mem_singleton.mp hmem]
          exact hstat

/-- C5 (amended): for an item whose device policy is error mode
`reject` with maximum retries N, when every attempt encounters
sync-byte loss (and no other failure), the worker performs exactly N+1
download attempts for the item, after which the item is finished and
every recorded attempt is `sync_errors_aborted`.  No attempt's output
is kept: every aborted attempt's file is removed, and the
best-file/best-error-count/best-attempt-index tracking fields retain
their initial values (aborted attempts never update the best-attempt
tracking), so the item does NOT end up with the best-available attempt
kept, contrary to the original claim. -/
theorem reject_mode_retry_budget (maxr : Nat) (inputs : Nat → AttemptInput)
    (outfiles : Nat → String) (st0 : DownloadItem) (fs : List String)
    (hopen : ∀ i, (inputs i).open_exc = none)
    (hhdr : ∀ i, ∃ h, (inputs i).header_result = some h)
    (hexc : ∀ i, (inputs i).exc_at = none)
    (hlossy : ∀ i, has_lossy_chunk (inputs i).chunks = true)
    (hts : st0.ts_format = true) (hclean : st0.ts_error_packets = [])
    (hretry0 : st0.retry = 0) (hatt0 : st0.download_attempts = []) :
    ∃ (out : DownloadItem) (fsOut : List String),
      run_item (maxr + 1) TsErrorMode.reject maxr inputs outfiles st0 fs
          = some (out, fsOut)
      ∧ out.finished = true
      ∧ out.download_attempts.length = maxr + 1
      ∧ (∀ a ∈ out.download_attempts, a.status = "sync_errors_aborted")
      ∧ out.best_file = st0.best_file
      ∧ out.best_error_count = st0.best_error_count
      ∧ out.best_attempt_index = st0.best_attempt_index := by
  obtain ⟨out, fsOut, hrun, hfin, hlen, hbf, hbc, hbi, hmem⟩ :=
    run_item_reject maxr inputs outfiles (maxr + 1) st0 fs hopen hhdr hexc hlossy hts hclean
      (by omega) (by omega)
  refine ⟨out, fsOut, hrun, hfin, ?_, ?_, hbf, hbc, hbi⟩
  · rw [hlen, hatt0, hretry0]
    simp
  · intro a ha
    rcases hmem a ha with hmem2 | hmem2
    · rw [hatt0] at hmem2
      exact absurd hmem2 (List.not_mem_nil a)
    · exact hmem2

/-- Attempt events for the C5 scenario: attempt 0 reads one chunk of
five corrupted packets, every later attempt one chunk of two corrupted
packets. -/
def c5Inputs : Nat → AttemptInput := fun i =>
  { open_exc := none, header_result := some (List.replicate 16 0),
    chunks := [if i = 0 then List.replicate 940 0 else List.replicate 376 0],
    exc_at := none, clock := ⟨fun _ => false, fun _ => 1⟩, attempt_elapsed := 1 }

def c5Run : Option (DownloadItem × List String) :=
  run_item 2 TsErrorMode.reject 1 c5Inputs (fun _ => "out.tivo")
    (initial_status "u" false false true false) []

set_option maxRecDepth 16384 in
/-- C5 counterexample: with `ts_max_retries = 1` under `reject`,
attempt 1 loses 5 packets and attempt 2 loses only 2; both are
aborted.  The final item is finished after 2 attempts, but no attempt
is kept: the output file of every attempt was removed (the final
filesystem holds only the sync-error log), `best_file` is still empty
and `best_attempt_index` still points at its initial value 0 even
though the attempt with the fewest errors is index 1 — the
best-available attempt is NOT kept, refuting that part of the claim. -/
theorem reject_mode_best_not_kept_counterexample :
    c5Run.map (fun p => p.1.download_attempts.map (fun a => a.error_packet_count))
        = some [5, 2]
    ∧ c5Run.map (fun p => p.1.download_attempts.map (fun a => a.status))
        = some ["sync_errors_aborted", "sync_errors_aborted"]
    ∧ c5Run.map (fun p => p.1.finished) = some true
    ∧ c5Run.map (fun p => p.1.best_file) = some ""
    ∧ c5Run.map (fun p => p.1.best_attempt_index) = some 0
    ∧ c5Run.map (fun p => p.2) = some ["out.syncerr.yaml"] := by
  refine ⟨?_, ?_, ?_, ?_, ?_, ?_⟩ <;> rfl

set_option maxRecDepth 65536 in
/-- Witness for C5 (amended) at the concrete scenario. -/
theorem reject_mode_retry_budget_witness :
    ((∀ i, (c5Inputs i).open_exc = none)
      ∧ (∀ i, ∃ h, (c5Inputs i).header_result = some h)
      ∧ (∀ i, (c5Inputs i).exc_at = none)
      ∧ (∀ i, has_lossy_chunk (c5Inputs i).chunks = true)
      ∧ (initial_status "u" false false true false).ts_format = true
      ∧ (initial_status "u" false false true false).ts_error_packets = []
      ∧ (initial_status "u" false false true false).retry = 0
      ∧ (initial_status "u" false false true false).download_attempts = [])
    ∧ (∃ (out : DownloadItem) (fsOut : List String),
        run_item 2 TsErrorMode.reject 1 c5Inputs (fun _ => "out.tivo")
            (initial_status "u" false false true false) [] = some (out, fsOut)
        ∧ out.finished = true
        ∧ out.download_attempts.length = 2
        ∧ (∀ a ∈ out.download_attempts, a.status = "sync_errors_aborted")
        ∧ out.best_file = (initial_status "u" false false true false).best_file
        ∧ out.best_error_count = (initial_status "u" false false true false).best_error_count
        ∧ out.best_attempt_index
            = (initial_status "u" false false true false).best_attempt_index) := by
  have hlossy : ∀ i, has_lossy_chunk (c5Inputs i).chunks = true := by
    intro i
    by_cases hi : i = 0 <;> simp only [c5Inputs, hi, if_pos, if_neg, ite_true, ite_false] <;>
      rfl
  refine ⟨⟨fun i => rfl, fun i => ⟨_, rfl⟩, fun i => rfl, hlossy, rfl, rfl, rfl, rfl⟩, ?_⟩
  exact reject_mode_retry_budget 1 c5Inputs (fun _ => "out.tivo")
    (initial_status "u" false false true false) [] (fun i => rfl) (fun i => ⟨_, rfl⟩)
    (fun i => rfl) hlossy rfl rfl rfl rfl
